import Mathlib

/-
  Shallow embedding of the space-shooter simulation core (src/main.cpp).

  Modelling conventions:
  - C++ float values are modelled as rationals (ℚ); int values as ℤ.
  - SFML collaborators are modelled as explicit inputs: keyboard state and
    the randomized draws of a frame live in an `Env` record, texture-derived
    sprite bounds sizes live in an `Assets` record.
  - Sprites have a centered origin, so an entity's axis-aligned global
    bounds is the rectangle of the stored `size` centered at its position.
  - `sf::Clock`-based shoot cooldowns are modelled by an elapsed-time field
    advanced by the frame delta (wall time between two frames equals the
    frame delta fed to the update functions).
  - Render-only state (sprites, sounds, UI text and bars) is omitted:
    it is never read back by the simulation.
-/

namespace SpaceShooter

inductive GameState where
  | MainMenu
  | Playing
  | BossFight
  | GameOver
  | Victory
  deriving DecidableEq

inductive WeaponType where
  | Basic
  | Double
  | Triple
  | Laser
  deriving DecidableEq

inductive EnemyType where
  | Basic
  | Fast
  | Tanky
  | Boss
  deriving DecidableEq

inductive PowerUpType where
  | Health
  | Shield
  | WeaponUpgrade
  | ScoreBoost
  deriving DecidableEq

structure Vec2 where
  x : ℚ
  y : ℚ
  deriving DecidableEq

structure Rect where
  left : ℚ
  top : ℚ
  width : ℚ
  height : ℚ
  deriving DecidableEq

/-- Axis-aligned intersection test of sf FloatRect (strict inequalities). -/
def Rect.intersects (a b : Rect) : Bool :=
  decide (max a.left b.left < min (a.left + a.width) (b.left + b.width) ∧
          max a.top b.top < min (a.top + a.height) (b.top + b.height))

/-- Global bounds of a centered-origin sprite of the given size at `pos`. -/
def boundsAt (pos size : Vec2) : Rect :=
  ⟨pos.x - size.x / 2, pos.y - size.y / 2, size.x, size.y⟩

/-- A Particle is reduced to its remaining lifetime; position, velocity and
color influence rendering only. -/
def particleStep (dt : ℚ) (life : ℚ) : Option ℚ :=
  let l := life - dt
  if l ≤ 0 then none else some l

/-- An Explosion as the list of its particles (their remaining lifetimes). -/
structure Explosion where
  particles : List ℚ
  deriving DecidableEq

def Explosion.update (e : Explosion) (dt : ℚ) : Explosion :=
  ⟨e.particles.filterMap (particleStep dt)⟩

/-- Per-frame external inputs: held keys, the randomized particle burst of
the Explosion constructor, and the rand() draws used by the spawners. -/
structure Env where
  left : Bool
  right : Bool
  up : Bool
  down : Bool
  space : Bool
  mkExplosion : Vec2 → Explosion
  enemyTypeDraw : ℕ
  enemyXDraw : ℕ
  powerUpTypeDraw : ℕ
  powerUpXDraw : ℕ

/-- Texture-derived global-bounds sizes (texture size times the scale set at
construction), per entity kind. -/
structure Assets where
  playerSize : Vec2
  bulletSize : Vec2
  bullet1Size : Vec2
  bullet2Size : Vec2
  laserSize : Vec2
  bossSize : Vec2
  enemySize : EnemyType → Vec2
  powerUpSize : PowerUpType → Vec2

structure Bullet where
  pos : Vec2
  size : Vec2
  damage : ℚ
  deriving DecidableEq

def Bullet.bounds (b : Bullet) : Rect := boundsAt b.pos b.size

/-- Bullet::update — player bullets move straight up at 600 px/s. -/
def Bullet.update (b : Bullet) (dt : ℚ) : Bullet :=
  { b with pos := ⟨b.pos.x, b.pos.y - 600 * dt⟩ }

def Bullet.isOffScreen (b : Bullet) : Bool := decide (b.pos.y < 0)

structure Laser where
  pos : Vec2
  size : Vec2
  lifetime : ℚ
  damage : ℚ
  deriving DecidableEq

def Laser.bounds (l : Laser) : Rect := boundsAt l.pos l.size

/-- Laser::update — a laser does not move, its lifetime counts down. -/
def Laser.update (l : Laser) (dt : ℚ) : Laser :=
  { l with lifetime := l.lifetime - dt }

def Laser.isActive (l : Laser) : Bool := decide (0 < l.lifetime)

structure Shield where
  health : ℚ
  active : Bool
  deriving DecidableEq

/-- Shield constructor: health 100, active false. -/
def mkShield : Shield := ⟨100, false⟩

/-- Shield::update — depletes at 10 hp/s while active, deactivates at ≤ 0. -/
def Shield.update (s : Shield) (dt : ℚ) : Shield :=
  if s.active then
    let h := s.health - 10 * dt
    if h ≤ 0 then ⟨h, false⟩ else ⟨h, s.active⟩
  else s

/-- Shield::activate — refills to 100 and activates, whatever the prior state. -/
def Shield.activate (_s : Shield) : Shield := ⟨100, true⟩

/-- Shield::takeDamage — subtracts (no floor), deactivates at ≤ 0. -/
def Shield.takeDamage (s : Shield) (amount : ℚ) : Shield :=
  let h := s.health - amount
  if h ≤ 0 then ⟨h, false⟩ else ⟨h, s.active⟩

structure Player where
  pos : Vec2
  size : Vec2
  health : ℤ
  score : ℤ
  weaponType : WeaponType
  shootElapsed : ℚ
  shield : Shield
  deriving DecidableEq

/-- Player constructor (position is set afterwards by the Game). -/
def mkPlayer (a : Assets) : Player :=
  ⟨⟨0, 0⟩, a.playerSize, 100, 0, WeaponType.Basic, 0, mkShield⟩

def Player.bounds (p : Player) : Rect := boundsAt p.pos p.size

/-- Player::update — guarded (not clamped) movement at 300 px/s per held
direction, then the shield update while the shield is active. -/
def Player.update (p : Player) (env : Env) (dt : ℚ) : Player :=
  let p := if env.left ∧ 0 < p.pos.x then
             { p with pos := ⟨p.pos.x - 300 * dt, p.pos.y⟩ } else p
  let p := if env.right ∧ p.pos.x < 800 then
             { p with pos := ⟨p.pos.x + 300 * dt, p.pos.y⟩ } else p
  let p := if env.up ∧ 0 < p.pos.y then
             { p with pos := ⟨p.pos.x, p.pos.y - 300 * dt⟩ } else p
  let p := if env.down ∧ p.pos.y < 600 then
             { p with pos := ⟨p.pos.x, p.pos.y + 300 * dt⟩ } else p
  if p.shield.active then { p with shield := p.shield.update dt } else p

def Player.cooldown (p : Player) : ℚ :=
  match p.weaponType with
  | WeaponType.Basic => 1/4
  | WeaponType.Double => 1/5
  | WeaponType.Triple => 3/20
  | WeaponType.Laser => 1

/-- Player::canShoot — true once the shoot clock exceeds the cooldown of the
current weapon; restarts the clock on a true result. -/
def Player.canShoot (p : Player) : Bool × Player :=
  if p.cooldown < p.shootElapsed then (true, { p with shootElapsed := 0 })
  else (false, p)

/-- Player::shoot — 0 to 3 bullets per the weapon tier spread pattern. -/
def Player.shoot (p : Player) (a : Assets) : List Bullet :=
  match p.weaponType with
  | WeaponType.Basic =>
      [⟨⟨p.pos.x, p.pos.y - 30⟩, a.bulletSize, 10⟩]
  | WeaponType.Double =>
      [⟨⟨p.pos.x - 20, p.pos.y - 20⟩, a.bullet1Size, 15⟩,
       ⟨⟨p.pos.x + 20, p.pos.y - 20⟩, a.bullet1Size, 15⟩]
  | WeaponType.Triple =>
      [⟨⟨p.pos.x, p.pos.y - 30⟩, a.bullet2Size, 20⟩,
       ⟨⟨p.pos.x - 25, p.pos.y - 15⟩, a.bullet2Size, 20⟩,
       ⟨⟨p.pos.x + 25, p.pos.y - 15⟩, a.bullet2Size, 20⟩]
  | WeaponType.Laser => []

/-- Player::shootLaser — a laser only at Laser tier (lifetime 0.5, damage 1). -/
def Player.shootLaser (p : Player) (a : Assets) : Option Laser :=
  if p.weaponType = WeaponType.Laser then
    some ⟨⟨p.pos.x, p.pos.y - 300⟩, a.laserSize, 1/2, 1⟩
  else none

/-- Player::takeDamage — routed entirely to the shield when it is active,
otherwise subtracted from health and floored at 0. -/
def Player.takeDamage (p : Player) (amount : ℤ) : Player :=
  if p.shield.active then
    { p with shield := p.shield.takeDamage (amount : ℚ) }
  else
    let h := p.health - amount
    { p with health := if h < 0 then 0 else h }

/-- Player::heal — adds, capped at 100. -/
def Player.heal (p : Player) (amount : ℤ) : Player :=
  let h := p.health + amount
  { p with health := if 100 < h then 100 else h }

def Player.activateShield (p : Player) : Player :=
  { p with shield := p.shield.activate }

def Player.addScore (p : Player) (points : ℤ) : Player :=
  { p with score := p.score + points }

/-- Player::upgradeWeapon — one step forward; at Laser tier, +50 score. -/
def Player.upgradeWeapon (p : Player) : Player :=
  match p.weaponType with
  | WeaponType.Basic => { p with weaponType := WeaponType.Double }
  | WeaponType.Double => { p with weaponType := WeaponType.Triple }
  | WeaponType.Triple => { p with weaponType := WeaponType.Laser }
  | WeaponType.Laser => p.addScore 50

def Player.resetScore (p : Player) : Player := { p with score := 0 }

def Player.resetHealth (p : Player) : Player := { p with health := 100 }

def Player.resetWeapon (p : Player) : Player :=
  { p with weaponType := WeaponType.Basic }

structure Enemy where
  etype : EnemyType
  health : ℚ
  speed : ℚ
  scoreValue : ℤ
  pos : Vec2
  size : Vec2
  deriving DecidableEq

def Enemy.bounds (e : Enemy) : Rect := boundsAt e.pos e.size

/-- Enemy::update — moves straight down at its speed. -/
def Enemy.update (e : Enemy) (dt : ℚ) : Enemy :=
  { e with pos := ⟨e.pos.x, e.pos.y + e.speed * dt⟩ }

def Enemy.isOffScreen (e : Enemy) : Bool := decide (600 < e.pos.y)

/-- Enemy::takeDamage — subtracts with no floor at 0. -/
def Enemy.takeDamage (e : Enemy) (amount : ℚ) : Enemy :=
  { e with health := e.health - amount }

def Enemy.isDestroyed (e : Enemy) : Bool := decide (e.health ≤ 0)

def mkBasicEnemy (a : Assets) : Enemy :=
  ⟨EnemyType.Basic, 20, 150, 10, ⟨0, 0⟩, a.enemySize EnemyType.Basic⟩

def mkFastEnemy (a : Assets) : Enemy :=
  ⟨EnemyType.Fast, 10, 250, 15, ⟨0, 0⟩, a.enemySize EnemyType.Fast⟩

def mkTankyEnemy (a : Assets) : Enemy :=
  ⟨EnemyType.Tanky, 40, 100, 20, ⟨0, 0⟩, a.enemySize EnemyType.Tanky⟩

inductive BossState where
  | Entering
  | MovingLeft
  | MovingRight
  deriving DecidableEq

structure Boss where
  health : ℚ
  speed : ℚ
  scoreValue : ℤ
  pos : Vec2
  size : Vec2
  state : BossState
  stateTime : ℚ
  shootCooldown : ℚ
  deriving DecidableEq

/-- BossEnemy constructor followed by the setPosition(400, -50) done by the
Game right after creating it: health 500, speed 50, score 500, shoot
cooldown initialized to 0, Entering state. -/
def mkBossEnemy (a : Assets) : Boss :=
  ⟨500, 50, 500, ⟨400, -50⟩, a.bossSize, BossState.Entering, 0, 0⟩

def Boss.bounds (b : Boss) : Rect := boundsAt b.pos b.size

/-- BossEnemy::update — phase machine plus the shoot-cooldown countdown. -/
def Boss.update (b : Boss) (dt : ℚ) : Boss :=
  let b := { b with stateTime := b.stateTime + dt,
                    shootCooldown := b.shootCooldown - dt }
  match b.state with
  | BossState.Entering =>
      if b.pos.y < 100 then
        { b with pos := ⟨b.pos.x, b.pos.y + b.speed * dt⟩ }
      else
        { b with state := BossState.MovingLeft, stateTime := 0 }
  | BossState.MovingLeft =>
      let b := { b with pos := ⟨b.pos.x - b.speed * (3/2) * dt, b.pos.y⟩ }
      if 2 < b.stateTime ∨ b.pos.x < 100 then
        { b with state := BossState.MovingRight, stateTime := 0 }
      else b
  | BossState.MovingRight =>
      let b := { b with pos := ⟨b.pos.x + b.speed * (3/2) * dt, b.pos.y⟩ }
      if 2 < b.stateTime ∨ 700 < b.pos.x then
        { b with state := BossState.MovingLeft, stateTime := 0 }
      else b

/-- BossEnemy::canShoot — true when the cooldown has run out, then rearms it
to 0.5 s. -/
def Boss.canShoot (b : Boss) : Bool × Boss :=
  if b.shootCooldown ≤ 0 then (true, { b with shootCooldown := 1/2 })
  else (false, b)

/-- BossEnemy::shoot — a 3-bullet spread below the boss (default damage 10). -/
def Boss.shoot (b : Boss) (a : Assets) : List Bullet :=
  [⟨⟨b.pos.x - 30, b.pos.y + 50⟩, a.bullet2Size, 10⟩,
   ⟨⟨b.pos.x, b.pos.y + 50⟩, a.bullet2Size, 10⟩,
   ⟨⟨b.pos.x + 30, b.pos.y + 50⟩, a.bullet2Size, 10⟩]

def Boss.takeDamage (b : Boss) (amount : ℚ) : Boss :=
  { b with health := b.health - amount }

def Boss.isDestroyed (b : Boss) : Bool := decide (b.health ≤ 0)

structure PowerUp where
  ptype : PowerUpType
  pos : Vec2
  size : Vec2
  deriving DecidableEq

def PowerUp.bounds (pu : PowerUp) : Rect := boundsAt pu.pos pu.size

/-- PowerUp::update — falls straight down at 150 px/s. -/
def PowerUp.update (pu : PowerUp) (dt : ℚ) : PowerUp :=
  { pu with pos := ⟨pu.pos.x, pu.pos.y + 150 * dt⟩ }

def PowerUp.isOffScreen (pu : PowerUp) : Bool := decide (600 < pu.pos.y)

structure Level where
  currentLevel : ℤ
  enemiesDefeated : ℤ
  bossSpawned : Bool
  deriving DecidableEq

def mkLevel : Level := ⟨1, 0, false⟩

def Level.getEnemiesForNextLevel (lv : Level) : ℤ :=
  20 + (lv.currentLevel - 1) * 5

/-- Level::update — accumulates defeats; at the threshold, and only when the
boss flag is not already set, levels up, resets the counter and sets the
flag. -/
def Level.update (lv : Level) (defeatedEnemies : ℤ) : Level :=
  let lv := { lv with enemiesDefeated := lv.enemiesDefeated + defeatedEnemies }
  if lv.getEnemiesForNextLevel ≤ lv.enemiesDefeated ∧ lv.bossSpawned = false then
    ⟨lv.currentLevel + 1, 0, true⟩
  else lv

def Level.isBossLevel (lv : Level) : Bool := lv.bossSpawned

def Level.resetBossFlag (lv : Level) : Level := { lv with bossSpawned := false }

def Level.getEnemySpawnInterval (lv : Level) : ℚ :=
  max (3/2 - ((lv.currentLevel : ℚ) - 1) * (1/10)) (1/2)

def Level.getPowerUpSpawnInterval (lv : Level) : ℚ :=
  max (10 - ((lv.currentLevel : ℚ) - 1) * (1/2)) 5

def Level.reset (_lv : Level) : Level := ⟨1, 0, false⟩

/-- The Game simulation state: everything the per-frame update reads or
writes, render-only members excluded. -/
structure Game where
  gameState : GameState
  player : Player
  bullets : List Bullet
  lasers : List Laser
  enemies : List Enemy
  powerups : List PowerUp
  enemyBullets : List Bullet
  boss : Option Boss
  explosions : List Explosion
  level : Level
  enemySpawnTimer : ℚ
  powerupSpawnTimer : ℚ
  bossWarningVisible : Bool
  bossWarningTime : ℚ

/-- Inner loop of Game::updateBullets: a (moved) bullet against the enemy
list; stops at the first intersecting enemy, damaging it, removing it when
destroyed (explosion, score, level update). Returns the updated enemies,
player, level and explosions, and whether the bullet was consumed. -/
def bulletVsEnemies (mkExp : Vec2 → Explosion) (b : Bullet) :
    List Enemy → Player → Level → List Explosion →
    List Enemy × Player × Level × List Explosion × Bool
  | [], p, lv, ex => ([], p, lv, ex, false)
  | e :: rest, p, lv, ex =>
    if b.bounds.intersects e.bounds then
      let e2 := e.takeDamage b.damage
      if e2.isDestroyed then
        (rest, p.addScore e.scoreValue, lv.update 1, ex ++ [mkExp e.pos], true)
      else
        (e2 :: rest, p, lv, ex, true)
    else
      let r := bulletVsEnemies mkExp b rest p lv ex
      (e :: r.1, r.2.1, r.2.2.1, r.2.2.2.1, r.2.2.2.2)

/-- One iteration of the Game::updateBullets loop body for one bullet:
advance it, try the enemies (first match consumes it), then the boss, then
the off-screen cull. `none` means the bullet was erased. -/
def processBullet (mkExp : Vec2 → Explosion) (dt : ℚ) (b : Bullet)
    (g : Game) : Game × Option Bullet :=
  let b := b.update dt
  let r := bulletVsEnemies mkExp b g.enemies g.player g.level g.explosions
  let g := { g with enemies := r.1, player := r.2.1, level := r.2.2.1,
                    explosions := r.2.2.2.1 }
  if r.2.2.2.2 then (g, none)
  else
    match g.boss with
    | some bo =>
        if b.bounds.intersects bo.bounds then
          ({ g with boss := some (bo.takeDamage b.damage) }, none)
        else if b.isOffScreen then (g, none) else (g, some b)
    | none => if b.isOffScreen then (g, none) else (g, some b)

def updateBulletsGo (mkExp : Vec2 → Explosion) (dt : ℚ) :
    List Bullet → Game → Game
  | [], g => g
  | b :: bs, g =>
    let r := processBullet mkExp dt b g
    let g2 := updateBulletsGo mkExp dt bs r.1
    match r.2 with
    | some b2 => { g2 with bullets := b2 :: g2.bullets }
    | none => g2

/-- Game::updateBullets — erase-during-iterate over the player bullets. -/
def Game.updateBullets (g : Game) (mkExp : Vec2 → Explosion) (dt : ℚ) : Game :=
  updateBulletsGo mkExp dt g.bullets { g with bullets := [] }

/-- Inner loop of Game::updateLasers: a laser is checked against every enemy
(it is never consumed by a hit), damaging each intersecting one and removing
those destroyed. -/
def laserVsEnemies (mkExp : Vec2 → Explosion) (l : Laser) :
    List Enemy → Player → Level → List Explosion →
    List Enemy × Player × Level × List Explosion
  | [], p, lv, ex => ([], p, lv, ex)
  | e :: rest, p, lv, ex =>
    if l.bounds.intersects e.bounds then
      let e2 := e.takeDamage l.damage
      if e2.isDestroyed then
        laserVsEnemies mkExp l rest (p.addScore e.scoreValue) (lv.update 1)
          (ex ++ [mkExp e.pos])
      else
        let r := laserVsEnemies mkExp l rest p lv ex
        (e2 :: r.1, r.2.1, r.2.2.1, r.2.2.2)
    else
      let r := laserVsEnemies mkExp l rest p lv ex
      (e :: r.1, r.2.1, r.2.2.1, r.2.2.2)

/-- One iteration of the Game::updateLasers loop body for one laser:
tick its lifetime, damage every intersecting enemy and the boss, keep the
laser exactly when it is still active. -/
def processLaser (mkExp : Vec2 → Explosion) (dt : ℚ) (l : Laser)
    (g : Game) : Game × Option Laser :=
  let l := l.update dt
  let r := laserVsEnemies mkExp l g.enemies g.player g.level g.explosions
  let g := { g with enemies := r.1, player := r.2.1, level := r.2.2.1,
                    explosions := r.2.2.2 }
  let g :=
    match g.boss with
    | some bo =>
        if l.bounds.intersects bo.bounds then
          { g with boss := some (bo.takeDamage l.damage) }
        else g
    | none => g
  if l.isActive then (g, some l) else (g, none)

def updateLasersGo (mkExp : Vec2 → Explosion) (dt : ℚ) :
    List Laser → Game → Game
  | [], g => g
  | l :: ls, g =>
    let r := processLaser mkExp dt l g
    let g2 := updateLasersGo mkExp dt ls r.1
    match r.2 with
    | some l2 => { g2 with lasers := l2 :: g2.lasers }
    | none => g2

/-- Game::updateLasers — erase-during-iterate over the lasers. -/
def Game.updateLasers (g : Game) (mkExp : Vec2 → Explosion) (dt : ℚ) : Game :=
  updateLasersGo mkExp dt g.lasers { g with lasers := [] }

/-- One iteration of the Game::updateEnemies loop body: advance the enemy;
on body collision with the player deal 25 damage, spawn an explosion and
erase it (game over on player death); otherwise cull it when off screen. -/
def processEnemy (mkExp : Vec2 → Explosion) (dt : ℚ) (e : Enemy)
    (g : Game) : Game × Option Enemy :=
  let e := e.update dt
  if e.bounds.intersects g.player.bounds then
    let p := g.player.takeDamage 25
    let g := { g with player := p, explosions := g.explosions ++ [mkExp e.pos] }
    let g :=
      if p.health ≤ 0 then
        { g with gameState := GameState.GameOver,
                 explosions := g.explosions ++ [mkExp p.pos] }
      else g
    (g, none)
  else if e.isOffScreen then (g, none)
  else (g, some e)

def updateEnemiesGo (mkExp : Vec2 → Explosion) (dt : ℚ) :
    List Enemy → Game → Game
  | [], g => g
  | e :: es, g =>
    let r := processEnemy mkExp dt e g
    let g2 := updateEnemiesGo mkExp dt es r.1
    match r.2 with
    | some e2 => { g2 with enemies := e2 :: g2.enemies }
    | none => g2

/-- Game::updateEnemies — erase-during-iterate over the enemies. -/
def Game.updateEnemies (g : Game) (mkExp : Vec2 → Explosion) (dt : ℚ) : Game :=
  updateEnemiesGo mkExp dt g.enemies { g with enemies := [] }

/-- Effect applied on power-up pickup. -/
def applyPowerUp (t : PowerUpType) (p : Player) : Player :=
  match t with
  | PowerUpType.Health => p.heal 25
  | PowerUpType.Shield => p.activateShield
  | PowerUpType.WeaponUpgrade => p.upgradeWeapon
  | PowerUpType.ScoreBoost => p.addScore 50

/-- One iteration of the Game::updatePowerUps loop body. -/
def processPowerUp (dt : ℚ) (pu : PowerUp) (g : Game) : Game × Option PowerUp :=
  let pu := pu.update dt
  if pu.bounds.intersects g.player.bounds then
    ({ g with player := applyPowerUp pu.ptype g.player }, none)
  else if pu.isOffScreen then (g, none)
  else (g, some pu)

def updatePowerUpsGo (dt : ℚ) : List PowerUp → Game → Game
  | [], g => g
  | pu :: pus, g =>
    let r := processPowerUp dt pu g
    let g2 := updatePowerUpsGo dt pus r.1
    match r.2 with
    | some pu2 => { g2 with powerups := pu2 :: g2.powerups }
    | none => g2

/-- Game::updatePowerUps — erase-during-iterate over the power-ups. -/
def Game.updatePowerUps (g : Game) (dt : ℚ) : Game :=
  updatePowerUpsGo dt g.powerups { g with powerups := [] }

/-- Game::updateExplosions — tick every explosion, cull those whose
particles have all expired. -/
def Game.updateExplosions (g : Game) (dt : ℚ) : Game :=
  { g with explosions := g.explosions.filterMap (fun e =>
      let e2 := e.update dt
      if e2.particles.isEmpty then none else some e2) }

/-- One iteration of the enemy-bullet loop inlined in Game::updateBossFight:
the bullet moves down 300 px/s; on hitting the player it deals 10 damage and
is erased (game over plus explosion on player death); off-screen cull. -/
def processEnemyBullet (mkExp : Vec2 → Explosion) (dt : ℚ) (b : Bullet)
    (g : Game) : Game × Option Bullet :=
  let b := { b with pos := ⟨b.pos.x, b.pos.y + 300 * dt⟩ }
  if b.bounds.intersects g.player.bounds then
    let p := g.player.takeDamage 10
    let g := { g with player := p }
    let g :=
      if p.health ≤ 0 then
        { g with gameState := GameState.GameOver,
                 explosions := g.explosions ++ [mkExp p.pos] }
      else g
    (g, none)
  else if decide (600 < b.pos.y) then (g, none)
  else (g, some b)

def updateEnemyBulletsGo (mkExp : Vec2 → Explosion) (dt : ℚ) :
    List Bullet → Game → Game
  | [], g => g
  | b :: bs, g =>
    let r := processEnemyBullet mkExp dt b g
    let g2 := updateEnemyBulletsGo mkExp dt bs r.1
    match r.2 with
    | some b2 => { g2 with enemyBullets := b2 :: g2.enemyBullets }
    | none => g2

/-- The enemy-bullet pass of Game::updateBossFight. -/
def Game.updateEnemyBullets (g : Game) (mkExp : Vec2 → Explosion) (dt : ℚ) :
    Game :=
  updateEnemyBulletsGo mkExp dt g.enemyBullets { g with enemyBullets := [] }

/-- Game::spawnEnemy — the enemy kind drawn among the kinds unlocked by the
level, the x coordinate drawn in [25, 774], spawned at y = -50. -/
def Game.spawnEnemy (g : Game) (a : Assets) (env : Env) : Game :=
  let maxEnemyType : ℕ := min 3 g.level.currentLevel.toNat
  let e :=
    match env.enemyTypeDraw % maxEnemyType with
    | 0 => mkBasicEnemy a
    | 1 => mkFastEnemy a
    | _ => mkTankyEnemy a
  let x : ℚ := (env.enemyXDraw % 750 + 25 : ℕ)
  { g with enemies := g.enemies ++ [{ e with pos := ⟨x, -50⟩ }] }

/-- Game::spawnPowerUp — type drawn uniformly among the four kinds. -/
def Game.spawnPowerUp (g : Game) (a : Assets) (env : Env) : Game :=
  let t :=
    match env.powerUpTypeDraw % 4 with
    | 0 => PowerUpType.Health
    | 1 => PowerUpType.Shield
    | 2 => PowerUpType.WeaponUpgrade
    | _ => PowerUpType.ScoreBoost
  let x : ℚ := (env.powerUpXDraw % 750 + 25 : ℕ)
  { g with powerups := g.powerups ++ [⟨t, ⟨x, -50⟩, a.powerUpSize t⟩] }

/-- Game::startBossFight — switches to the BossFight state and shows the
warning banner. -/
def Game.startBossFight (g : Game) : Game :=
  { g with gameState := GameState.BossFight,
           bossWarningVisible := true, bossWarningTime := 0 }

/-- Game::startGame — full reset into the Playing state. -/
def Game.startGame (g : Game) : Game :=
  { g with gameState := GameState.Playing,
           player := { (g.player.resetHealth.resetScore.resetWeapon) with
                        pos := ⟨400, 550⟩ },
           bullets := [],
           lasers := [],
           enemies := [],
           powerups := [],
           explosions := [],
           enemyBullets := [],
           boss := none,
           level := g.level.reset,
           enemySpawnTimer := 0,
           powerupSpawnTimer := 0 }

/-- The shooting block shared by updatePlaying and updateBossFight: when the
shoot key is held and the cooldown allows, push a laser at Laser tier or the
weapon's bullets otherwise. -/
def doShooting (env : Env) (a : Assets) (g : Game) : Game :=
  if env.space then
    let c := g.player.canShoot
    let p := c.2
    if c.1 then
      if p.weaponType = WeaponType.Laser then
        match p.shootLaser a with
        | some l => { g with player := p, lasers := g.lasers ++ [l] }
        | none => { g with player := p }
      else
        { g with player := p, bullets := g.bullets ++ p.shoot a }
    else { g with player := p }
  else g

/-- The player step shared by both states: Player::update for the frame plus
the wall-time advance of the shoot clock. -/
def playerFrame (env : Env) (dt : ℚ) (g : Game) : Game :=
  let p := g.player.update env dt
  { g with player := { p with shootElapsed := p.shootElapsed + dt } }

/-- Game::updatePlaying — the per-frame update in the Playing state.
updateUI only recomputes render-side text and bar sizes and is omitted. -/
def Game.updatePlaying (g : Game) (env : Env) (a : Assets) (dt : ℚ) : Game :=
  let g := playerFrame env dt g
  let g := doShooting env a g
  let t := g.enemySpawnTimer + dt
  let g := if g.level.getEnemySpawnInterval ≤ t then
             { (g.spawnEnemy a env) with enemySpawnTimer := 0 }
           else { g with enemySpawnTimer := t }
  let t2 := g.powerupSpawnTimer + dt
  let g := if g.level.getPowerUpSpawnInterval ≤ t2 then
             { (g.spawnPowerUp a env) with powerupSpawnTimer := 0 }
           else { g with powerupSpawnTimer := t2 }
  let g := g.updateBullets env.mkExplosion dt
  let g := g.updateLasers env.mkExplosion dt
  let g := g.updateEnemies env.mkExplosion dt
  let g := g.updatePowerUps dt
  let g := g.updateExplosions dt
  if g.level.isBossLevel then g.startBossFight else g

/-- The boss block of Game::updateBossFight: create the boss when absent;
otherwise advance it, fire its spread when the cooldown allows, and resolve
its destruction (explosion, score, flag reset, Victory at level ≥ 5 else
back to Playing). -/
def bossFrame (env : Env) (a : Assets) (dt : ℚ) (g : Game) : Game :=
  match g.boss with
  | none => { g with boss := some (mkBossEnemy a) }
  | some bo =>
    let bo := bo.update dt
    let c := bo.canShoot
    let g :=
      if c.1 then
        { g with boss := some c.2,
                 enemyBullets := g.enemyBullets ++ c.2.shoot a }
      else { g with boss := some c.2 }
    if bo.isDestroyed then
      let g := { g with explosions := g.explosions ++ [env.mkExplosion bo.pos],
                        player := g.player.addScore bo.scoreValue,
                        boss := none,
                        level := g.level.resetBossFlag }
      if (5 : ℤ) ≤ g.level.currentLevel then
        { g with gameState := GameState.Victory }
      else
        { g with gameState := GameState.Playing }
    else g

/-- The boss-warning banner timing at the end of Game::updateBossFight. -/
def bossWarningFrame (dt : ℚ) (g : Game) : Game :=
  if g.bossWarningVisible then
    let t := g.bossWarningTime + dt
    if 3 ≤ t then { g with bossWarningVisible := false, bossWarningTime := t }
    else { g with bossWarningTime := t }
  else g

/-- Game::updateBossFight — the per-frame update in the BossFight state.
updateUI is render-only and omitted. -/
def Game.updateBossFight (g : Game) (env : Env) (a : Assets) (dt : ℚ) : Game :=
  let g := playerFrame env dt g
  let g := doShooting env a g
  let g := bossFrame env a dt g
  let g := g.updateBullets env.mkExplosion dt
  let g := g.updateEnemyBullets env.mkExplosion dt
  let g := g.updateLasers env.mkExplosion dt
  let g := g.updateExplosions dt
  bossWarningFrame dt g

/-- Game::update — dispatch on the game state (MainMenu does nothing;
GameOver and Victory only keep ticking the explosions). -/
def Game.update (g : Game) (env : Env) (a : Assets) (dt : ℚ) : Game :=
  match g.gameState with
  | GameState.MainMenu => g
  | GameState.Playing => g.updatePlaying env a dt
  | GameState.BossFight => g.updateBossFight env a dt
  | GameState.GameOver => g.updateExplosions dt
  | GameState.Victory => g.updateExplosions dt

/-- A sample texture configuration: every sprite gets 10×10 bounds. -/
def sampleAssets : Assets :=
  ⟨⟨10, 10⟩, ⟨10, 10⟩, ⟨10, 10⟩, ⟨10, 10⟩, ⟨10, 10⟩, ⟨10, 10⟩,
   fun _ => ⟨10, 10⟩, fun _ => ⟨10, 10⟩⟩

/-- A frame with no key held and trivial randomized draws. -/
def envNone : Env := ⟨false, false, false, false, false, fun _ => ⟨[]⟩, 0, 0, 0, 0⟩

def envLeft : Env := { envNone with left := true }

/-- A quiescent Game value in the given state. -/
def sampleGame (gs : GameState) : Game :=
  { gameState := gs
    player := { mkPlayer sampleAssets with pos := ⟨400, 550⟩ }
    bullets := []
    lasers := []
    enemies := []
    powerups := []
    enemyBullets := []
    boss := none
    explosions := []
    level := mkLevel
    enemySpawnTimer := 0
    powerupSpawnTimer := 0
    bossWarningVisible := false
    bossWarningTime := 0 }

/-- Ordinal position of a weapon tier in Basic→Double→Triple→Laser. -/
def tierIdx : WeaponType → ℕ
  | WeaponType.Basic => 0
  | WeaponType.Double => 1
  | WeaponType.Triple => 2
  | WeaponType.Laser => 3

/-- C1: with the shield inactive, Player.takeDamage leaves health
max(0, h - amount) and the shield untouched; with the shield active, health
is unchanged and the full amount is routed to the shield. -/
theorem c1_player_takeDamage (p : Player) (amount : ℤ) :
    (p.shield.active = false →
      (p.takeDamage amount).health = max 0 (p.health - amount) ∧
      (p.takeDamage amount).shield = p.shield) ∧
    (p.shield.active = true →
      (p.takeDamage amount).health = p.health ∧
      (p.takeDamage amount).shield = p.shield.takeDamage (amount : ℚ)) := by
  constructor
  · intro h
    refine ⟨?_, ?_⟩ <;> simp only [Player.takeDamage, h, Bool.false_eq_true, if_false]
    · split <;> omega
  · intro h
    simp [Player.takeDamage, h]

/-- C1 witness: health 100 damaged by 150 without shield floors at 0; with
an active shield the same hit leaves health at 100. -/
theorem c1_player_takeDamage_witness :
    ((mkPlayer sampleAssets).takeDamage 150).health = 0 ∧
    ((mkPlayer sampleAssets).activateShield.takeDamage 150).health = 100 := by
  constructor
  · have h := (c1_player_takeDamage (mkPlayer sampleAssets) 150).1 (by rfl)
    rw [h.1]
    decide
  · have h := (c1_player_takeDamage ((mkPlayer sampleAssets).activateShield) 150).2 (by rfl)
    rw [h.1]
    decide

/-- C2 counterexample: a reachable shield state with negative stored health.
Activate the shield, let it deplete for 9.5 s down to health 5, then take a
25-damage body hit: the stored shield health becomes -20, outside [0,100]. -/
def c2chain : Player :=
  (((mkPlayer sampleAssets).activateShield).update envNone (19/2)).takeDamage 25

/-- C2 counterexample: the claim that shield health stays within [0,100] in
every reachable state is false: the chain above stores shield health -20. -/
theorem c2_shield_negative_counterexample :
    c2chain.shield.health = -20 ∧ c2chain.shield.health < 0 := by
  norm_num [c2chain, mkPlayer, sampleAssets, envNone, Player.activateShield,
    Shield.activate, Player.update, Shield.update, Player.takeDamage,
    Shield.takeDamage, mkShield]

/-- C2 amended: per-operation invariants that do hold. Player health stays
in [0,100] under takeDamage/heal (non-negative amounts); shield health never
exceeds 100 and the shield deactivates whenever its health reaches ≤ 0 (but
the stored value is not floored at 0); the score is non-decreasing under
addScore with non-negative points, upgradeWeapon, takeDamage, heal and
update. -/
theorem c2_amended_invariants (p : Player) (s : Shield) (amt : ℤ)
    (q dt : ℚ) (env : Env) :
    (0 ≤ amt → 0 ≤ p.health → 0 ≤ (p.takeDamage amt).health) ∧
    (0 ≤ amt → p.health ≤ 100 → (p.takeDamage amt).health ≤ 100) ∧
    (0 ≤ amt → 0 ≤ p.health → 0 ≤ (p.heal amt).health) ∧
    ((p.heal amt).health ≤ 100) ∧
    (0 ≤ q → s.health ≤ 100 → (s.takeDamage q).health ≤ 100) ∧
    ((s.takeDamage q).health ≤ 0 → (s.takeDamage q).active = false) ∧
    (0 ≤ dt → s.health ≤ 100 → (s.update dt).health ≤ 100) ∧
    ((s.update dt).active = true → 0 < (s.update dt).health) ∧
    (0 ≤ amt → p.score ≤ (p.addScore amt).score) ∧
    (p.score ≤ (p.upgradeWeapon).score) ∧
    ((p.takeDamage amt).score = p.score) ∧
    ((p.heal amt).score = p.score) ∧
    ((p.update env dt).score = p.score) := by
  refine ⟨?_, ?_, ?_, ?_, ?_, ?_, ?_, ?_, ?_, ?_, ?_, ?_, ?_⟩
  · intro h1 h2
    simp only [Player.takeDamage]
    split
    · simpa using h2
    · simp only []
      split <;> omega
  · intro h1 h2
    simp only [Player.takeDamage]
    split
    · simpa using h2
    · simp only []
      split <;> omega
  · intro h1 h2
    simp only [Player.heal]
    split <;> omega
  · simp only [Player.heal]
    split <;> omega
  · intro h1 h2
    simp only [Shield.takeDamage]
    split_ifs
    all_goals
      show s.health - q ≤ 100
      linarith
  · intro h1
    simp only [Shield.takeDamage] at h1 ⊢
    split_ifs at h1 ⊢ <;> simp_all
  · intro h1 h2
    simp only [Shield.update]
    split_ifs
    · show s.health - 10 * dt ≤ 100
      nlinarith
    · show s.health - 10 * dt ≤ 100
      nlinarith
    · exact h2
  · intro h1
    simp only [Shield.update] at h1 ⊢
    split_ifs at h1 ⊢ <;> simp_all
  · intro h1
    simp only [Player.addScore]
    omega
  · cases hw : p.weaponType <;>
      simp [Player.upgradeWeapon, hw, Player.addScore]
  · simp only [Player.takeDamage]
    split <;> rfl
  · rfl
  · simp only [Player.update]
    split <;> split <;> split <;> split <;> split <;> rfl

/-- C2 amended witness: the preconditions hold at health 100 hit for 25, and
at shield health 100 hit for 30. -/
theorem c2_amended_invariants_witness :
    (0 ≤ ((mkPlayer sampleAssets).takeDamage 25).health) ∧
    (((Shield.takeDamage ⟨100, true⟩ 30).health ≤ 100)) := by
  constructor
  · exact (c2_amended_invariants (mkPlayer sampleAssets) ⟨100, true⟩ 25 30 1
      envNone).1 (by norm_num) (by decide)
  · exact (c2_amended_invariants (mkPlayer sampleAssets) ⟨100, true⟩ 25 30 1
      envNone).2.2.2.2.1 (by norm_num) (by norm_num)

/-- C5: Level.update levels up by exactly 1, zeroes the counter and sets the
boss flag exactly when the accumulated counter reaches the threshold with
the flag clear; with the flag already set (or below the threshold) only the
counter accumulates. -/
theorem c5_level_update (lv : Level) (d : ℤ) :
    (lv.getEnemiesForNextLevel ≤ lv.enemiesDefeated + d ∧ lv.bossSpawned = false →
      lv.update d = ⟨lv.currentLevel + 1, 0, true⟩) ∧
    (lv.bossSpawned = true →
      lv.update d = { lv with enemiesDefeated := lv.enemiesDefeated + d }) ∧
    (lv.enemiesDefeated + d < lv.getEnemiesForNextLevel →
      lv.update d = { lv with enemiesDefeated := lv.enemiesDefeated + d }) := by
  refine ⟨?_, ?_, ?_⟩
  · intro h
    simp only [Level.update, Level.getEnemiesForNextLevel] at h ⊢
    rw [if_pos]
    exact ⟨h.1, h.2⟩
  · intro h
    simp only [Level.update, Level.getEnemiesForNextLevel] at h ⊢
    rw [if_neg]
    simp [h]
  · intro h
    simp only [Level.update, Level.getEnemiesForNextLevel] at h ⊢
    rw [if_neg]
    intro hc
    exact absurd hc.1 (by omega)

/-- C5 witness: at level 1 with 19 defeats and the flag clear, one more
defeat crosses the threshold 20 and yields level 2, counter 0, flag set;
with the flag set the same numbers only accumulate. -/
theorem c5_level_update_witness :
    Level.update ⟨1, 19, false⟩ 1 = ⟨2, 0, true⟩ ∧
    Level.update ⟨1, 19, true⟩ 1 = ⟨1, 20, true⟩ := by
  constructor
  · exact (c5_level_update ⟨1, 19, false⟩ 1).1 (by norm_num [Level.getEnemiesForNextLevel])
  · exact (c5_level_update ⟨1, 19, true⟩ 1).2.1 rfl

/-- C6: upgradeWeapon advances the tier exactly one step along
Basic→Double→Triple→Laser (never regressing); at Laser tier it leaves the
tier unchanged and adds exactly 50 to the score, otherwise the score is
unchanged. -/
theorem c6_upgradeWeapon (p : Player) :
    tierIdx (p.upgradeWeapon).weaponType = min (tierIdx p.weaponType + 1) 3 ∧
    tierIdx p.weaponType ≤ tierIdx (p.upgradeWeapon).weaponType ∧
    (p.weaponType = WeaponType.Laser →
      (p.upgradeWeapon).weaponType = WeaponType.Laser ∧
      (p.upgradeWeapon).score = p.score + 50) ∧
    (p.weaponType ≠ WeaponType.Laser → (p.upgradeWeapon).score = p.score) := by
  cases hw : p.weaponType <;>
    simp [Player.upgradeWeapon, hw, tierIdx, Player.addScore]

/-- C6 witness: at Laser tier the upgrade keeps Laser and pays 50 points. -/
theorem c6_upgradeWeapon_witness :
    ({ mkPlayer sampleAssets with
        weaponType := WeaponType.Laser }.upgradeWeapon).score =
      ({ mkPlayer sampleAssets with weaponType := WeaponType.Laser }).score + 50 := by
  exact ((c6_upgradeWeapon
    { mkPlayer sampleAssets with weaponType := WeaponType.Laser }).2.2.1 rfl).2

/-- C7: from a GameOver or Victory state, startGame resets health to 100,
score to 0, weapon to Basic, empties every transient collection, clears the
boss, resets the level and returns to Playing. -/
theorem c7_startGame (g : Game) :
    g.gameState = GameState.GameOver ∨ g.gameState = GameState.Victory →
    (g.startGame).gameState = GameState.Playing ∧
    (g.startGame).player.health = 100 ∧
    (g.startGame).player.score = 0 ∧
    (g.startGame).player.weaponType = WeaponType.Basic ∧
    (g.startGame).bullets = [] ∧
    (g.startGame).lasers = [] ∧
    (g.startGame).enemies = [] ∧
    (g.startGame).powerups = [] ∧
    (g.startGame).explosions = [] ∧
    (g.startGame).enemyBullets = [] ∧
    (g.startGame).boss = none ∧
    (g.startGame).level = ⟨1, 0, false⟩ := by
  intro _
  simp [Game.startGame, Player.resetHealth, Player.resetScore,
    Player.resetWeapon, Level.reset]

/-- C7 witness: restarting from a concrete GameOver state. -/
theorem c7_startGame_witness :
    ((sampleGame GameState.GameOver).startGame).gameState = GameState.Playing ∧
    ((sampleGame GameState.GameOver).startGame).player.health = 100 := by
  have h := c7_startGame (sampleGame GameState.GameOver) (Or.inl rfl)
  exact ⟨h.1, h.2.1⟩

/-- C8 counterexample player: standing just inside the left 800×600 bound. -/
def c8player : Player := { mkPlayer sampleAssets with pos := ⟨1, 300⟩ }

/-- C8 counterexample: with the left key held and dt = 1 s, Player.update
moves the player from x = 1 to x = -299, outside the 800×600 play area, so
the update does not keep the position clamped within the window bounds. -/
theorem c8_no_clamp_counterexample :
    (c8player.update envLeft 1).pos.x = -299 ∧
    (c8player.update envLeft 1).pos.x < 0 := by
  norm_num [c8player, mkPlayer, sampleAssets, envLeft, envNone,
    Player.update, mkShield, Shield.update]

set_option maxHeartbeats 2000000 in
/-- C8 amended: Player.update does not clamp the position; each direction
moves only while the position is strictly inside that direction's bound
before the move, so the position can leave the 800×600 area by at most
300·dt in one update, and once at or past a bound no further movement past
it occurs. -/
theorem c8_amended_bounded_overshoot (p : Player) (env : Env) (dt : ℚ)
    (h : 0 ≤ dt) :
    (p.pos.x - 300 * dt ≤ (p.update env dt).pos.x ∧
     (p.update env dt).pos.x ≤ p.pos.x + 300 * dt) ∧
    (p.pos.y - 300 * dt ≤ (p.update env dt).pos.y ∧
     (p.update env dt).pos.y ≤ p.pos.y + 300 * dt) ∧
    (p.pos.x ≤ 0 → p.pos.x ≤ (p.update env dt).pos.x) ∧
    (800 ≤ p.pos.x → (p.update env dt).pos.x ≤ p.pos.x) ∧
    (p.pos.y ≤ 0 → p.pos.y ≤ (p.update env dt).pos.y) ∧
    (600 ≤ p.pos.y → (p.update env dt).pos.y ≤ p.pos.y) := by
  have h300 : (0 : ℚ) ≤ 300 * dt := by linarith
  simp only [Player.update]
  split_ifs <;>
    refine ⟨⟨?_, ?_⟩, ⟨?_, ?_⟩, fun hx => ?_, fun hx => ?_,
      fun hy => ?_, fun hy => ?_⟩ <;>
    simp_all <;> linarith

/-- C8 amended witness: at x = 1 with the left key held for one second the
overshoot is within 300·dt. -/
theorem c8_amended_bounded_overshoot_witness :
    c8player.pos.x - 300 * 1 ≤ (c8player.update envLeft 1).pos.x := by
  exact (c8_amended_bounded_overshoot c8player envLeft 1 (by norm_num)).1.1

/-- C9: activateShield always refills the shield to health 100 and marks it
active regardless of its prior health or active state, leaving player
health, score and weapon unchanged. -/
theorem c9_activateShield (p : Player) :
    (p.activateShield).shield = ⟨100, true⟩ ∧
    (p.activateShield).health = p.health ∧
    (p.activateShield).score = p.score ∧
    (p.activateShield).weaponType = p.weaponType := by
  simp [Player.activateShield, Shield.activate]

/-- Boss.update always decrements the shoot cooldown by dt, whatever the
phase machine does. -/
lemma boss_update_cooldown (b : Boss) (dt : ℚ) :
    (b.update dt).shootCooldown = b.shootCooldown - dt := by
  obtain ⟨h1, h2, h3, p4, s5, st, t7, c8⟩ := b
  cases st <;> simp only [Boss.update] <;> split_ifs <;> rfl

/-- C10: a fresh BossEnemy has shoot cooldown 0, so on its first updated
frame canShoot already fires (rearming the 0.5 s cooldown) and shoot
produces the 3-bullet spread; a further canShoot within the next 0.5 s
returns false. -/
theorem c10_boss_first_shot (a : Assets) (dt dt2 : ℚ) :
    (mkBossEnemy a).shootCooldown = 0 ∧
    (0 ≤ dt →
      (((mkBossEnemy a).update dt).canShoot).1 = true ∧
      ((((mkBossEnemy a).update dt).canShoot).2).shootCooldown = 1/2 ∧
      (((mkBossEnemy a).update dt).shoot a).length = 3 ∧
      (0 ≤ dt2 → dt2 < 1/2 →
        (((((mkBossEnemy a).update dt).canShoot).2.update dt2).canShoot).1 =
          false)) := by
  constructor
  · rfl
  · intro hdt
    have hup : (((mkBossEnemy a).update dt)).shootCooldown = -dt := by
      rw [boss_update_cooldown]
      norm_num [mkBossEnemy]
    have hcool : ((((mkBossEnemy a).update dt).canShoot).2).shootCooldown
        = 1/2 := by
      simp only [Boss.canShoot, hup]
      rw [if_pos (by linarith)]
    refine ⟨?_, ?_, ?_, ?_⟩
    · simp only [Boss.canShoot, hup]
      rw [if_pos (by linarith)]
    · exact hcool
    · simp [Boss.shoot]
    · intro h2 h3
      set b2 := (((mkBossEnemy a).update dt).canShoot).2 with hb2
      have hup2 : ((b2.update dt2)).shootCooldown = 1/2 - dt2 := by
        rw [boss_update_cooldown, hcool]
      simp only [Boss.canShoot, hup2]
      rw [if_neg (by linarith)]

/-- C10 witness: boss created, updated by 0.1 s, first shot fires; a second
try 0.1 s later is blocked. -/
theorem c10_boss_first_shot_witness :
    ((((mkBossEnemy sampleAssets).update (1/10)).canShoot).1 = true) ∧
    ((((((mkBossEnemy sampleAssets).update (1/10)).canShoot).2.update
        (1/10)).canShoot).1 = false) := by
  have h := (c10_boss_first_shot sampleAssets (1/10) (1/10)).2 (by norm_num)
  exact ⟨h.1, h.2.2.2 (by norm_num) (by norm_num)⟩

/-- bulletVsEnemies on a list whose first intersecting enemy is `e`: the
prefix is untouched, `e` alone is damaged (removed when destroyed, with
explosion, score and level update), the suffix is untouched, and the bullet
counts as consumed. -/
lemma bulletVsEnemies_first (mkExp : Vec2 → Explosion) (b : Bullet)
    (pre post : List Enemy) (e : Enemy) :
    ∀ (p : Player) (lv : Level) (ex : List Explosion),
    (∀ e0 ∈ pre, b.bounds.intersects e0.bounds = false) →
    b.bounds.intersects e.bounds = true →
    bulletVsEnemies mkExp b (pre ++ e :: post) p lv ex =
      (pre ++ (if (e.takeDamage b.damage).isDestroyed then post
               else (e.takeDamage b.damage) :: post),
       (if (e.takeDamage b.damage).isDestroyed then p.addScore e.scoreValue
        else p),
       (if (e.takeDamage b.damage).isDestroyed then lv.update 1 else lv),
       (if (e.takeDamage b.damage).isDestroyed then ex ++ [mkExp e.pos]
        else ex),
       true) := by
  induction pre with
  | nil =>
    intro p lv ex _ he
    simp only [List.nil_append, bulletVsEnemies, he, if_true]
    split_ifs <;> rfl
  | cons e0 pre ih =>
    intro p lv ex hpre he
    have h0 : b.bounds.intersects e0.bounds = false := hpre e0 (by simp)
    simp only [List.cons_append, bulletVsEnemies, h0, Bool.false_eq_true,
      if_false, List.append_eq]
    rw [ih p lv ex (fun x hx => hpre x (by simp [hx])) he]

/-- The laser survives a frame exactly when its decremented lifetime is
still positive, independently of what it hit. -/
lemma processLaser_snd (mkExp : Vec2 → Explosion) (dt : ℚ) (l : Laser)
    (g : Game) :
    (processLaser mkExp dt l g).2 =
      if (l.update dt).isActive then some (l.update dt) else none := by
  simp only [processLaser]
  cases hb : g.boss <;> simp [hb] <;> split_ifs <;> rfl

/-- The enemies left by a laser pass: every intersecting enemy is damaged
(and removed exactly when destroyed), every other enemy is untouched. -/
lemma laserVsEnemies_fst (mkExp : Vec2 → Explosion) (l : Laser) :
    ∀ (es : List Enemy) (p : Player) (lv : Level) (ex : List Explosion),
    (laserVsEnemies mkExp l es p lv ex).1 =
      es.filterMap (fun e1 =>
        if l.bounds.intersects e1.bounds then
          (if (e1.takeDamage l.damage).isDestroyed then none
           else some (e1.takeDamage l.damage))
        else some e1) := by
  intro es
  induction es with
  | nil => intro p lv ex; rfl
  | cons e1 rest ih =>
    intro p lv ex
    by_cases h1 : l.bounds.intersects e1.bounds = true
    · by_cases h2 : (e1.takeDamage l.damage).isDestroyed = true
      · simp [laserVsEnemies, h1, h2, ih, List.filterMap_cons]
      · simp [laserVsEnemies, h1, h2, ih, List.filterMap_cons]
    · simp [laserVsEnemies, h1, ih, List.filterMap_cons]

/-- C3: in the per-frame collision pass, a player bullet is consumed by its
first bounding-box hit (even when the enemy survives) and damages only that
first enemy, leaving the enemies before and after it untouched; a laser is
removed exactly when its lifetime expires, never because it hit, and one
laser damages every intersecting enemy in the pass. -/
theorem c3_bullet_consumed_laser_persists
    (mkExp : Vec2 → Explosion) (dt : ℚ) (g : Game) (b : Bullet)
    (pre post : List Enemy) (e : Enemy) (l : Laser)
    (es : List Enemy) (p : Player) (lv : Level) (ex : List Explosion) :
    (g.enemies = pre ++ e :: post →
      (∀ e0 ∈ pre, (b.update dt).bounds.intersects e0.bounds = false) →
      (b.update dt).bounds.intersects e.bounds = true →
      processBullet mkExp dt b g =
        ({ g with
             enemies := pre ++
               (if (e.takeDamage b.damage).isDestroyed then post
                else (e.takeDamage b.damage) :: post),
             player := if (e.takeDamage b.damage).isDestroyed
                       then g.player.addScore e.scoreValue else g.player,
             level := if (e.takeDamage b.damage).isDestroyed
                      then g.level.update 1 else g.level,
             explosions := if (e.takeDamage b.damage).isDestroyed
                           then g.explosions ++ [mkExp e.pos]
                           else g.explosions },
         none)) ∧
    ((processLaser mkExp dt l g).2 =
      if (l.update dt).isActive then some (l.update dt) else none) ∧
    ((laserVsEnemies mkExp l es p lv ex).1 =
      es.filterMap (fun e1 =>
        if l.bounds.intersects e1.bounds then
          (if (e1.takeDamage l.damage).isDestroyed then none
           else some (e1.takeDamage l.damage))
        else some e1)) := by
  refine ⟨?_, processLaser_snd mkExp dt l g, laserVsEnemies_fst mkExp l es p lv ex⟩
  intro hg hpre he
  have hbv := bulletVsEnemies_first mkExp (b.update dt) pre post e
    g.player g.level g.explosions hpre he
  simp only [processBullet, hg, hbv]
  simp only [show (b.update dt).damage = b.damage from rfl]
  split_ifs <;> rfl

/-- A concrete enemy sitting at (100, 100). -/
def c3enemy : Enemy := ⟨EnemyType.Basic, 20, 150, 10, ⟨100, 100⟩, ⟨10, 10⟩⟩

/-- A concrete bullet that reaches (100, 100) after a 0.1 s step. -/
def c3bullet : Bullet := ⟨⟨100, 160⟩, ⟨10, 10⟩, 10⟩

def c3game : Game :=
  { sampleGame GameState.Playing with
      enemies := [c3enemy], bullets := [c3bullet] }

/-- C3 witness: the concrete bullet hits the concrete enemy on its first
(and only) match and is consumed; the enemy survives with damaged health. -/
theorem c3_bullet_consumed_laser_persists_witness :
    (processBullet envNone.mkExplosion (1/10) c3bullet c3game).2 = none ∧
    (processBullet envNone.mkExplosion (1/10) c3bullet c3game).1.enemies =
      [{ c3enemy with health := 10 }] := by
  have hg : c3game.enemies = [] ++ c3enemy :: [] := rfl
  have hpre : ∀ e0 ∈ ([] : List Enemy),
      (c3bullet.update (1/10)).bounds.intersects e0.bounds = false := by
    simp
  have he : (c3bullet.update (1/10)).bounds.intersects c3enemy.bounds = true := by
    norm_num [c3bullet, c3enemy, Bullet.update, Bullet.bounds, Enemy.bounds,
      boundsAt, Rect.intersects]
  have h := (c3_bullet_consumed_laser_persists envNone.mkExplosion (1/10)
    c3game c3bullet [] [] c3enemy ⟨⟨0, 0⟩, ⟨1, 1⟩, 1, 1⟩ [] (mkPlayer sampleAssets)
    mkLevel []).1 hg hpre he
  rw [h]
  have hnd : (c3enemy.takeDamage c3bullet.damage).isDestroyed = false := by
    norm_num [c3enemy, c3bullet, Enemy.takeDamage, Enemy.isDestroyed]
  constructor
  · rfl
  · simp only [hnd, Bool.false_eq_true, if_false]
    norm_num [c3enemy, c3bullet, Enemy.takeDamage]

/-- The player-bullet pass never touches enemy bullets, power-ups or
lasers, and does not read the incoming bullets field of its accumulator. -/
lemma processBullet_keeps (mkExp : Vec2 → Explosion) (dt : ℚ) (b : Bullet)
    (g : Game) :
    (processBullet mkExp dt b g).1.enemyBullets = g.enemyBullets ∧
    (processBullet mkExp dt b g).1.powerups = g.powerups ∧
    (processBullet mkExp dt b g).1.lasers = g.lasers ∧
    (processBullet mkExp dt b g).1.bullets = g.bullets := by
  simp only [processBullet]
  cases hb : g.boss <;> simp only [hb] <;> split_ifs <;> simp

lemma updateBulletsGo_keeps (mkExp : Vec2 → Explosion) (dt : ℚ) :
    ∀ (bs : List Bullet) (g : Game),
    (updateBulletsGo mkExp dt bs g).enemyBullets = g.enemyBullets ∧
    (updateBulletsGo mkExp dt bs g).powerups = g.powerups ∧
    (updateBulletsGo mkExp dt bs g).lasers = g.lasers := by
  intro bs
  induction bs with
  | nil => exact fun g => ⟨rfl, rfl, rfl⟩
  | cons b bs ih =>
    intro g
    have hk := processBullet_keeps mkExp dt b g
    generalize hpe : processBullet mkExp dt b g = r at hk
    obtain ⟨g1, ob⟩ := r
    cases ob <;> simp only [updateBulletsGo, hpe] <;>
      exact ⟨((ih g1).1).trans hk.1, ((ih g1).2.1).trans hk.2.1,
             ((ih g1).2.2).trans hk.2.2.1⟩

lemma updateBullets_keeps (g : Game) (mkExp : Vec2 → Explosion) (dt : ℚ) :
    (g.updateBullets mkExp dt).enemyBullets = g.enemyBullets ∧
    (g.updateBullets mkExp dt).powerups = g.powerups ∧
    (g.updateBullets mkExp dt).lasers = g.lasers :=
  updateBulletsGo_keeps mkExp dt g.bullets { g with bullets := [] }

/-- The laser pass never touches enemy bullets, power-ups or bullets. -/
lemma processLaser_keeps (mkExp : Vec2 → Explosion) (dt : ℚ) (l : Laser)
    (g : Game) :
    (processLaser mkExp dt l g).1.enemyBullets = g.enemyBullets ∧
    (processLaser mkExp dt l g).1.powerups = g.powerups ∧
    (processLaser mkExp dt l g).1.bullets = g.bullets ∧
    (processLaser mkExp dt l g).1.lasers = g.lasers := by
  simp only [processLaser]
  cases hb : g.boss <;> simp only [hb] <;> split_ifs <;> simp

lemma updateLasersGo_keeps (mkExp : Vec2 → Explosion) (dt : ℚ) :
    ∀ (ls : List Laser) (g : Game),
    (updateLasersGo mkExp dt ls g).enemyBullets = g.enemyBullets ∧
    (updateLasersGo mkExp dt ls g).powerups = g.powerups ∧
    (updateLasersGo mkExp dt ls g).bullets = g.bullets := by
  intro ls
  induction ls with
  | nil => exact fun g => ⟨rfl, rfl, rfl⟩
  | cons l ls ih =>
    intro g
    have hk := processLaser_keeps mkExp dt l g
    generalize hpe : processLaser mkExp dt l g = r at hk
    obtain ⟨g1, ol⟩ := r
    cases ol <;> simp only [updateLasersGo, hpe] <;>
      exact ⟨((ih g1).1).trans hk.1, ((ih g1).2.1).trans hk.2.1,
             ((ih g1).2.2).trans hk.2.2.1⟩

lemma updateLasers_keeps (g : Game) (mkExp : Vec2 → Explosion) (dt : ℚ) :
    (g.updateLasers mkExp dt).enemyBullets = g.enemyBullets ∧
    (g.updateLasers mkExp dt).powerups = g.powerups ∧
    (g.updateLasers mkExp dt).bullets = g.bullets :=
  updateLasersGo_keeps mkExp dt g.lasers { g with lasers := [] }

/-- The enemy pass never touches enemy bullets, power-ups, bullets or
lasers. -/
lemma processEnemy_keeps (mkExp : Vec2 → Explosion) (dt : ℚ) (e : Enemy)
    (g : Game) :
    (processEnemy mkExp dt e g).1.enemyBullets = g.enemyBullets ∧
    (processEnemy mkExp dt e g).1.powerups = g.powerups ∧
    (processEnemy mkExp dt e g).1.bullets = g.bullets ∧
    (processEnemy mkExp dt e g).1.lasers = g.lasers ∧
    (processEnemy mkExp dt e g).1.enemies = g.enemies := by
  simp only [processEnemy]
  split_ifs <;> simp

lemma updateEnemiesGo_keeps (mkExp : Vec2 → Explosion) (dt : ℚ) :
    ∀ (es : List Enemy) (g : Game),
    (updateEnemiesGo mkExp dt es g).enemyBullets = g.enemyBullets ∧
    (updateEnemiesGo mkExp dt es g).powerups = g.powerups ∧
    (updateEnemiesGo mkExp dt es g).bullets = g.bullets ∧
    (updateEnemiesGo mkExp dt es g).lasers = g.lasers := by
  intro es
  induction es with
  | nil => exact fun g => ⟨rfl, rfl, rfl, rfl⟩
  | cons e es ih =>
    intro g
    have hstep : updateEnemiesGo mkExp dt (e :: es) g =
        (match (processEnemy mkExp dt e g).2 with
         | some e2 =>
             { updateEnemiesGo mkExp dt es (processEnemy mkExp dt e g).1 with
                 enemies := e2 ::
                   (updateEnemiesGo mkExp dt es
                     (processEnemy mkExp dt e g).1).enemies }
         | none => updateEnemiesGo mkExp dt es (processEnemy mkExp dt e g).1) :=
      rfl
    have hk := processEnemy_keeps mkExp dt e g
    rw [hstep]
    generalize hpe : processEnemy mkExp dt e g = r at hk ⊢
    obtain ⟨g1, oe⟩ := r
    cases oe <;> dsimp only <;>
      exact ⟨((ih g1).1).trans hk.1, ((ih g1).2.1).trans hk.2.1,
             ((ih g1).2.2.1).trans hk.2.2.1,
             ((ih g1).2.2.2).trans hk.2.2.2.1⟩

lemma updateEnemies_keeps (g : Game) (mkExp : Vec2 → Explosion) (dt : ℚ) :
    (g.updateEnemies mkExp dt).enemyBullets = g.enemyBullets ∧
    (g.updateEnemies mkExp dt).powerups = g.powerups ∧
    (g.updateEnemies mkExp dt).bullets = g.bullets ∧
    (g.updateEnemies mkExp dt).lasers = g.lasers :=
  updateEnemiesGo_keeps mkExp dt g.enemies { g with enemies := [] }

/-- The power-up pass never touches enemy bullets, bullets, lasers, enemies
or explosions. -/
lemma processPowerUp_keeps (dt : ℚ) (pu : PowerUp) (g : Game) :
    (processPowerUp dt pu g).1.enemyBullets = g.enemyBullets ∧
    (processPowerUp dt pu g).1.bullets = g.bullets ∧
    (processPowerUp dt pu g).1.lasers = g.lasers ∧
    (processPowerUp dt pu g).1.enemies = g.enemies ∧
    (processPowerUp dt pu g).1.explosions = g.explosions ∧
    (processPowerUp dt pu g).1.powerups = g.powerups := by
  simp only [processPowerUp]
  split_ifs <;> simp

lemma updatePowerUpsGo_keeps (dt : ℚ) :
    ∀ (pus : List PowerUp) (g : Game),
    (updatePowerUpsGo dt pus g).enemyBullets = g.enemyBullets ∧
    (updatePowerUpsGo dt pus g).bullets = g.bullets ∧
    (updatePowerUpsGo dt pus g).lasers = g.lasers ∧
    (updatePowerUpsGo dt pus g).enemies = g.enemies ∧
    (updatePowerUpsGo dt pus g).explosions = g.explosions := by
  intro pus
  induction pus with
  | nil => exact fun g => ⟨rfl, rfl, rfl, rfl, rfl⟩
  | cons pu pus ih =>
    intro g
    have hstep : updatePowerUpsGo dt (pu :: pus) g =
        (match (processPowerUp dt pu g).2 with
         | some pu2 =>
             { updatePowerUpsGo dt pus (processPowerUp dt pu g).1 with
                 powerups := pu2 ::
                   (updatePowerUpsGo dt pus
                     (processPowerUp dt pu g).1).powerups }
         | none => updatePowerUpsGo dt pus (processPowerUp dt pu g).1) :=
      rfl
    have hk := processPowerUp_keeps dt pu g
    rw [hstep]
    generalize hpe : processPowerUp dt pu g = r at hk ⊢
    obtain ⟨g1, opu⟩ := r
    cases opu <;> dsimp only <;>
      exact ⟨((ih g1).1).trans hk.1, ((ih g1).2.1).trans hk.2.1,
             ((ih g1).2.2.1).trans hk.2.2.1,
             ((ih g1).2.2.2.1).trans hk.2.2.2.1,
             ((ih g1).2.2.2.2).trans hk.2.2.2.2.1⟩

lemma updatePowerUps_keeps (g : Game) (dt : ℚ) :
    (g.updatePowerUps dt).enemyBullets = g.enemyBullets ∧
    (g.updatePowerUps dt).bullets = g.bullets ∧
    (g.updatePowerUps dt).lasers = g.lasers ∧
    (g.updatePowerUps dt).enemies = g.enemies ∧
    (g.updatePowerUps dt).explosions = g.explosions :=
  updatePowerUpsGo_keeps dt g.powerups { g with powerups := [] }

/-- The explosion pass touches only the explosions. -/
lemma updateExplosions_keeps (g : Game) (dt : ℚ) :
    (g.updateExplosions dt).enemyBullets = g.enemyBullets ∧
    (g.updateExplosions dt).powerups = g.powerups ∧
    (g.updateExplosions dt).bullets = g.bullets ∧
    (g.updateExplosions dt).lasers = g.lasers ∧
    (g.updateExplosions dt).enemies = g.enemies :=
  ⟨rfl, rfl, rfl, rfl, rfl⟩

/-- The enemy-bullet pass never touches bullets, lasers, power-ups or
enemies. -/
lemma processEnemyBullet_keeps (mkExp : Vec2 → Explosion) (dt : ℚ)
    (b : Bullet) (g : Game) :
    (processEnemyBullet mkExp dt b g).1.bullets = g.bullets ∧
    (processEnemyBullet mkExp dt b g).1.lasers = g.lasers ∧
    (processEnemyBullet mkExp dt b g).1.powerups = g.powerups ∧
    (processEnemyBullet mkExp dt b g).1.enemies = g.enemies ∧
    (processEnemyBullet mkExp dt b g).1.enemyBullets = g.enemyBullets := by
  simp only [processEnemyBullet]
  split_ifs <;> simp

lemma updateEnemyBulletsGo_keeps (mkExp : Vec2 → Explosion) (dt : ℚ) :
    ∀ (bs : List Bullet) (g : Game),
    (updateEnemyBulletsGo mkExp dt bs g).bullets = g.bullets ∧
    (updateEnemyBulletsGo mkExp dt bs g).lasers = g.lasers ∧
    (updateEnemyBulletsGo mkExp dt bs g).powerups = g.powerups ∧
    (updateEnemyBulletsGo mkExp dt bs g).enemies = g.enemies := by
  intro bs
  induction bs with
  | nil => exact fun g => ⟨rfl, rfl, rfl, rfl⟩
  | cons b bs ih =>
    intro g
    have hstep : updateEnemyBulletsGo mkExp dt (b :: bs) g =
        (match (processEnemyBullet mkExp dt b g).2 with
         | some b2 =>
             { updateEnemyBulletsGo mkExp dt bs
                 (processEnemyBullet mkExp dt b g).1 with
                 enemyBullets := b2 ::
                   (updateEnemyBulletsGo mkExp dt bs
                     (processEnemyBullet mkExp dt b g).1).enemyBullets }
         | none => updateEnemyBulletsGo mkExp dt bs
             (processEnemyBullet mkExp dt b g).1) :=
      rfl
    have hk := processEnemyBullet_keeps mkExp dt b g
    rw [hstep]
    generalize hpe : processEnemyBullet mkExp dt b g = r at hk ⊢
    obtain ⟨g1, ob⟩ := r
    cases ob <;> dsimp only <;>
      exact ⟨((ih g1).1).trans hk.1, ((ih g1).2.1).trans hk.2.1,
             ((ih g1).2.2.1).trans hk.2.2.1,
             ((ih g1).2.2.2).trans hk.2.2.2.1⟩

lemma updateEnemyBullets_keeps (g : Game) (mkExp : Vec2 → Explosion)
    (dt : ℚ) :
    (g.updateEnemyBullets mkExp dt).bullets = g.bullets ∧
    (g.updateEnemyBullets mkExp dt).lasers = g.lasers ∧
    (g.updateEnemyBullets mkExp dt).powerups = g.powerups ∧
    (g.updateEnemyBullets mkExp dt).enemies = g.enemies :=
  updateEnemyBulletsGo_keeps mkExp dt g.enemyBullets
    { g with enemyBullets := [] }

/-- The player frame step touches only the player. -/
lemma playerFrame_keeps (env : Env) (dt : ℚ) (g : Game) :
    (playerFrame env dt g).bullets = g.bullets ∧
    (playerFrame env dt g).lasers = g.lasers ∧
    (playerFrame env dt g).enemies = g.enemies ∧
    (playerFrame env dt g).powerups = g.powerups ∧
    (playerFrame env dt g).enemyBullets = g.enemyBullets ∧
    (playerFrame env dt g).explosions = g.explosions ∧
    (playerFrame env dt g).level = g.level ∧
    (playerFrame env dt g).enemySpawnTimer = g.enemySpawnTimer ∧
    (playerFrame env dt g).powerupSpawnTimer = g.powerupSpawnTimer :=
  ⟨rfl, rfl, rfl, rfl, rfl, rfl, rfl, rfl, rfl⟩

/-- The shooting block touches only the player, bullets and lasers. -/
lemma doShooting_keeps (env : Env) (a : Assets) (g : Game) :
    (doShooting env a g).enemies = g.enemies ∧
    (doShooting env a g).powerups = g.powerups ∧
    (doShooting env a g).enemyBullets = g.enemyBullets ∧
    (doShooting env a g).explosions = g.explosions ∧
    (doShooting env a g).level = g.level ∧
    (doShooting env a g).enemySpawnTimer = g.enemySpawnTimer ∧
    (doShooting env a g).powerupSpawnTimer = g.powerupSpawnTimer := by
  cases hl : (g.player.canShoot).2.shootLaser a <;>
    simp only [doShooting, hl] <;> split_ifs <;>
    exact ⟨rfl, rfl, rfl, rfl, rfl, rfl, rfl⟩

/-- Spawning an enemy touches only the enemies. -/
lemma spawnEnemy_keeps (g : Game) (a : Assets) (env : Env) :
    (g.spawnEnemy a env).enemyBullets = g.enemyBullets ∧
    (g.spawnEnemy a env).bullets = g.bullets ∧
    (g.spawnEnemy a env).lasers = g.lasers ∧
    (g.spawnEnemy a env).powerups = g.powerups ∧
    (g.spawnEnemy a env).explosions = g.explosions :=
  ⟨rfl, rfl, rfl, rfl, rfl⟩

/-- Spawning a power-up touches only the power-ups. -/
lemma spawnPowerUp_keeps (g : Game) (a : Assets) (env : Env) :
    (g.spawnPowerUp a env).enemyBullets = g.enemyBullets ∧
    (g.spawnPowerUp a env).bullets = g.bullets ∧
    (g.spawnPowerUp a env).lasers = g.lasers ∧
    (g.spawnPowerUp a env).enemies = g.enemies ∧
    (g.spawnPowerUp a env).explosions = g.explosions :=
  ⟨rfl, rfl, rfl, rfl, rfl⟩

/-- Entering the boss fight touches no collection. -/
lemma startBossFight_keeps (g : Game) :
    (g.startBossFight).enemyBullets = g.enemyBullets ∧
    (g.startBossFight).bullets = g.bullets ∧
    (g.startBossFight).lasers = g.lasers ∧
    (g.startBossFight).enemies = g.enemies ∧
    (g.startBossFight).powerups = g.powerups ∧
    (g.startBossFight).explosions = g.explosions :=
  ⟨rfl, rfl, rfl, rfl, rfl, rfl⟩

/-- The warning banner step touches no collection. -/
lemma bossWarningFrame_keeps (dt : ℚ) (g : Game) :
    (bossWarningFrame dt g).enemyBullets = g.enemyBullets ∧
    (bossWarningFrame dt g).bullets = g.bullets ∧
    (bossWarningFrame dt g).lasers = g.lasers ∧
    (bossWarningFrame dt g).enemies = g.enemies ∧
    (bossWarningFrame dt g).powerups = g.powerups ∧
    (bossWarningFrame dt g).explosions = g.explosions := by
  simp only [bossWarningFrame]
  split_ifs <;> exact ⟨rfl, rfl, rfl, rfl, rfl, rfl⟩

/-- The boss block touches neither power-ups nor enemies, bullets or
lasers. -/
lemma bossFrame_keeps (env : Env) (a : Assets) (dt : ℚ) (g : Game) :
    (bossFrame env a dt g).powerups = g.powerups ∧
    (bossFrame env a dt g).enemies = g.enemies ∧
    (bossFrame env a dt g).bullets = g.bullets ∧
    (bossFrame env a dt g).lasers = g.lasers := by
  cases hb : g.boss with
  | none => simp [bossFrame, hb]
  | some bo =>
    simp only [bossFrame, hb]
    split_ifs <;> exact ⟨rfl, rfl, rfl, rfl⟩

/-- A bullet that survives its pass is on screen. -/
lemma processBullet_some (mkExp : Vec2 → Explosion) (dt : ℚ) (b : Bullet)
    (g : Game) (b2 : Bullet) :
    (processBullet mkExp dt b g).2 = some b2 → b2.isOffScreen = false := by
  simp only [processBullet]
  cases hb : g.boss <;> simp only [hb] <;> split_ifs <;> intro h <;> simp_all

lemma updateBulletsGo_onscreen (mkExp : Vec2 → Explosion) (dt : ℚ) :
    ∀ (bs : List Bullet) (g : Game),
    (∀ b1 ∈ g.bullets, b1.isOffScreen = false) →
    ∀ b1 ∈ (updateBulletsGo mkExp dt bs g).bullets, b1.isOffScreen = false := by
  intro bs
  induction bs with
  | nil => exact fun g hg => hg
  | cons b bs ih =>
    intro g hg
    have hstep : updateBulletsGo mkExp dt (b :: bs) g =
        (match (processBullet mkExp dt b g).2 with
         | some b2 =>
             { updateBulletsGo mkExp dt bs (processBullet mkExp dt b g).1 with
                 bullets := b2 ::
                   (updateBulletsGo mkExp dt bs
                     (processBullet mkExp dt b g).1).bullets }
         | none => updateBulletsGo mkExp dt bs (processBullet mkExp dt b g).1) :=
      rfl
    have hk := processBullet_keeps mkExp dt b g
    have hs := processBullet_some mkExp dt b g
    rw [hstep]
    generalize hpe : processBullet mkExp dt b g = r at hk hs ⊢
    obtain ⟨g1, ob⟩ := r
    have hg1 : ∀ b1 ∈ g1.bullets, b1.isOffScreen = false := by
      intro b1 hb1
      exact hg b1 (hk.2.2.2 ▸ hb1)
    cases ob with
    | none => exact ih g1 hg1
    | some b2 =>
      dsimp only
      intro b1 hb1
      rcases List.mem_cons.mp hb1 with rfl | hb1
      · exact hs b1 rfl
      · exact ih g1 hg1 b1 hb1

lemma updateBullets_onscreen (g : Game) (mkExp : Vec2 → Explosion) (dt : ℚ) :
    ∀ b1 ∈ (g.updateBullets mkExp dt).bullets, b1.isOffScreen = false :=
  updateBulletsGo_onscreen mkExp dt g.bullets { g with bullets := [] }
    (by intro b1 hb1; simp at hb1)

/-- A laser that survives its pass is still active. -/
lemma processLaser_some (mkExp : Vec2 → Explosion) (dt : ℚ) (l : Laser)
    (g : Game) (l2 : Laser) :
    (processLaser mkExp dt l g).2 = some l2 → l2.isActive = true := by
  rw [show (processLaser mkExp dt l g).2 =
      (if (l.update dt).isActive then some (l.update dt) else none) from
      processLaser_snd mkExp dt l g]
  split_ifs with h
  · intro he
    obtain rfl := Option.some.inj he
    exact h
  · intro he
    exact absurd he (by simp)

lemma updateLasersGo_active (mkExp : Vec2 → Explosion) (dt : ℚ) :
    ∀ (ls : List Laser) (g : Game),
    (∀ l1 ∈ g.lasers, l1.isActive = true) →
    ∀ l1 ∈ (updateLasersGo mkExp dt ls g).lasers, l1.isActive = true := by
  intro ls
  induction ls with
  | nil => exact fun g hg => hg
  | cons l ls ih =>
    intro g hg
    have hstep : updateLasersGo mkExp dt (l :: ls) g =
        (match (processLaser mkExp dt l g).2 with
         | some l2 =>
             { updateLasersGo mkExp dt ls (processLaser mkExp dt l g).1 with
                 lasers := l2 ::
                   (updateLasersGo mkExp dt ls
                     (processLaser mkExp dt l g).1).lasers }
         | none => updateLasersGo mkExp dt ls (processLaser mkExp dt l g).1) :=
      rfl
    have hk := processLaser_keeps mkExp dt l g
    have hs := processLaser_some mkExp dt l g
    rw [hstep]
    generalize hpe : processLaser mkExp dt l g = r at hk hs ⊢
    obtain ⟨g1, ol⟩ := r
    have hg1 : ∀ l1 ∈ g1.lasers, l1.isActive = true := by
      intro l1 hl1
      exact hg l1 (hk.2.2.2 ▸ hl1)
    cases ol with
    | none => exact ih g1 hg1
    | some l2 =>
      dsimp only
      intro l1 hl1
      rcases List.mem_cons.mp hl1 with rfl | hl1
      · exact hs l1 rfl
      · exact ih g1 hg1 l1 hl1

lemma updateLasers_active (g : Game) (mkExp : Vec2 → Explosion) (dt : ℚ) :
    ∀ l1 ∈ (g.updateLasers mkExp dt).lasers, l1.isActive = true :=
  updateLasersGo_active mkExp dt g.lasers { g with lasers := [] }
    (by intro l1 hl1; simp at hl1)

/-- An enemy that survives its pass is on screen. -/
lemma processEnemy_some (mkExp : Vec2 → Explosion) (dt : ℚ) (e : Enemy)
    (g : Game) (e2 : Enemy) :
    (processEnemy mkExp dt e g).2 = some e2 → e2.isOffScreen = false := by
  simp only [processEnemy]
  split_ifs <;> intro h <;> simp_all

lemma updateEnemiesGo_onscreen (mkExp : Vec2 → Explosion) (dt : ℚ) :
    ∀ (es : List Enemy) (g : Game),
    (∀ e1 ∈ g.enemies, e1.isOffScreen = false) →
    ∀ e1 ∈ (updateEnemiesGo mkExp dt es g).enemies, e1.isOffScreen = false := by
  intro es
  induction es with
  | nil => exact fun g hg => hg
  | cons e es ih =>
    intro g hg
    have hstep : updateEnemiesGo mkExp dt (e :: es) g =
        (match (processEnemy mkExp dt e g).2 with
         | some e2 =>
             { updateEnemiesGo mkExp dt es (processEnemy mkExp dt e g).1 with
                 enemies := e2 ::
                   (updateEnemiesGo mkExp dt es
                     (processEnemy mkExp dt e g).1).enemies }
         | none => updateEnemiesGo mkExp dt es (processEnemy mkExp dt e g).1) :=
      rfl
    have hk := processEnemy_keeps mkExp dt e g
    have hs := processEnemy_some mkExp dt e g
    rw [hstep]
    generalize hpe : processEnemy mkExp dt e g = r at hk hs ⊢
    obtain ⟨g1, oe⟩ := r
    have hg1 : ∀ e1 ∈ g1.enemies, e1.isOffScreen = false := by
      intro e1 he1
      exact hg e1 (hk.2.2.2.2 ▸ he1)
    cases oe with
    | none => exact ih g1 hg1
    | some e2 =>
      dsimp only
      intro e1 he1
      rcases List.mem_cons.mp he1 with rfl | he1
      · exact hs e1 rfl
      · exact ih g1 hg1 e1 he1

lemma updateEnemies_onscreen (g : Game) (mkExp : Vec2 → Explosion) (dt : ℚ) :
    ∀ e1 ∈ (g.updateEnemies mkExp dt).enemies, e1.isOffScreen = false :=
  updateEnemiesGo_onscreen mkExp dt g.enemies { g with enemies := [] }
    (by intro e1 he1; simp at he1)

/-- A power-up that survives its pass is on screen. -/
lemma processPowerUp_some (dt : ℚ) (pu : PowerUp) (g : Game) (pu2 : PowerUp) :
    (processPowerUp dt pu g).2 = some pu2 → pu2.isOffScreen = false := by
  simp only [processPowerUp]
  split_ifs <;> intro h <;> simp_all

lemma updatePowerUpsGo_onscreen (dt : ℚ) :
    ∀ (pus : List PowerUp) (g : Game),
    (∀ p1 ∈ g.powerups, p1.isOffScreen = false) →
    ∀ p1 ∈ (updatePowerUpsGo dt pus g).powerups, p1.isOffScreen = false := by
  intro pus
  induction pus with
  | nil => exact fun g hg => hg
  | cons pu pus ih =>
    intro g hg
    have hstep : updatePowerUpsGo dt (pu :: pus) g =
        (match (processPowerUp dt pu g).2 with
         | some pu2 =>
             { updatePowerUpsGo dt pus (processPowerUp dt pu g).1 with
                 powerups := pu2 ::
                   (updatePowerUpsGo dt pus
                     (processPowerUp dt pu g).1).powerups }
         | none => updatePowerUpsGo dt pus (processPowerUp dt pu g).1) :=
      rfl
    have hk := processPowerUp_keeps dt pu g
    have hs := processPowerUp_some dt pu g
    rw [hstep]
    generalize hpe : processPowerUp dt pu g = r at hk hs ⊢
    obtain ⟨g1, opu⟩ := r
    have hg1 : ∀ p1 ∈ g1.powerups, p1.isOffScreen = false := by
      intro p1 hp1
      exact hg p1 (hk.2.2.2.2.2 ▸ hp1)
    cases opu with
    | none => exact ih g1 hg1
    | some pu2 =>
      dsimp only
      intro p1 hp1
      rcases List.mem_cons.mp hp1 with rfl | hp1
      · exact hs p1 rfl
      · exact ih g1 hg1 p1 hp1

lemma updatePowerUps_onscreen (g : Game) (dt : ℚ) :
    ∀ p1 ∈ (g.updatePowerUps dt).powerups, p1.isOffScreen = false :=
  updatePowerUpsGo_onscreen dt g.powerups { g with powerups := [] }
    (by intro p1 hp1; simp at hp1)

/-- An enemy bullet that survives its pass has not crossed the bottom. -/
lemma processEnemyBullet_some (mkExp : Vec2 → Explosion) (dt : ℚ)
    (b : Bullet) (g : Game) (b2 : Bullet) :
    (processEnemyBullet mkExp dt b g).2 = some b2 → b2.pos.y ≤ 600 := by
  simp only [processEnemyBullet]
  split_ifs <;> intro h
  · exact absurd h (by simp)
  · exact absurd h (by simp)
  · obtain rfl := Option.some.inj h
    simp_all [not_lt]

lemma updateEnemyBulletsGo_low (mkExp : Vec2 → Explosion) (dt : ℚ) :
    ∀ (bs : List Bullet) (g : Game),
    (∀ b1 ∈ g.enemyBullets, b1.pos.y ≤ 600) →
    ∀ b1 ∈ (updateEnemyBulletsGo mkExp dt bs g).enemyBullets,
      b1.pos.y ≤ 600 := by
  intro bs
  induction bs with
  | nil => exact fun g hg => hg
  | cons b bs ih =>
    intro g hg
    have hstep : updateEnemyBulletsGo mkExp dt (b :: bs) g =
        (match (processEnemyBullet mkExp dt b g).2 with
         | some b2 =>
             { updateEnemyBulletsGo mkExp dt bs
                 (processEnemyBullet mkExp dt b g).1 with
                 enemyBullets := b2 ::
                   (updateEnemyBulletsGo mkExp dt bs
                     (processEnemyBullet mkExp dt b g).1).enemyBullets }
         | none => updateEnemyBulletsGo mkExp dt bs
             (processEnemyBullet mkExp dt b g).1) :=
      rfl
    have hk := processEnemyBullet_keeps mkExp dt b g
    have hs := processEnemyBullet_some mkExp dt b g
    rw [hstep]
    generalize hpe : processEnemyBullet mkExp dt b g = r at hk hs ⊢
    obtain ⟨g1, ob⟩ := r
    have hg1 : ∀ b1 ∈ g1.enemyBullets, b1.pos.y ≤ 600 := by
      intro b1 hb1
      exact hg b1 (hk.2.2.2.2 ▸ hb1)
    cases ob with
    | none => exact ih g1 hg1
    | some b2 =>
      dsimp only
      intro b1 hb1
      rcases List.mem_cons.mp hb1 with rfl | hb1
      · exact hs b1 rfl
      · exact ih g1 hg1 b1 hb1

lemma updateEnemyBullets_low (g : Game) (mkExp : Vec2 → Explosion) (dt : ℚ) :
    ∀ b1 ∈ (g.updateEnemyBullets mkExp dt).enemyBullets, b1.pos.y ≤ 600 :=
  updateEnemyBulletsGo_low mkExp dt g.enemyBullets
    { g with enemyBullets := [] } (by intro b1 hb1; simp at hb1)

/-- Every explosion kept by the explosion pass still has live particles. -/
lemma updateExplosions_alive (g : Game) (dt : ℚ) :
    ∀ x ∈ (g.updateExplosions dt).explosions, x.particles.isEmpty = false := by
  intro x hx
  simp only [Game.updateExplosions, List.mem_filterMap] at hx
  obtain ⟨a, _, ha⟩ := hx
  split_ifs at ha with h
  obtain rfl := Option.some.inj ha
  simpa using h

/-- A bullet pass only damages or removes enemies: every surviving enemy
keeps the position of an incoming one. -/
lemma bulletVsEnemies_pos (mkExp : Vec2 → Explosion) (b : Bullet) :
    ∀ (es : List Enemy) (p : Player) (lv : Level) (ex : List Explosion),
    ∀ e2 ∈ (bulletVsEnemies mkExp b es p lv ex).1,
      ∃ e1 ∈ es, e1.pos = e2.pos := by
  intro es
  induction es with
  | nil =>
    intro p lv ex e2 h
    simp [bulletVsEnemies] at h
  | cons e rest ih =>
    intro p lv ex e2 h2
    by_cases h1 : b.bounds.intersects e.bounds = true
    · by_cases hd : (e.takeDamage b.damage).isDestroyed = true
      · simp only [bulletVsEnemies, h1, hd, if_true] at h2
        exact ⟨e2, by simp [h2], rfl⟩
      · have hdf : (e.takeDamage b.damage).isDestroyed = false :=
          Bool.eq_false_iff.mpr hd
        simp only [bulletVsEnemies, h1, hdf, Bool.false_eq_true, if_true,
          if_false] at h2
        rcases List.mem_cons.mp h2 with rfl | h2
        · exact ⟨e, by simp, rfl⟩
        · exact ⟨e2, by simp [h2], rfl⟩
    · have h1f : b.bounds.intersects e.bounds = false := Bool.eq_false_iff.mpr h1
      simp only [bulletVsEnemies, h1f, Bool.false_eq_true, if_false] at h2
      rcases List.mem_cons.mp h2 with rfl | h2
      · exact ⟨e2, by simp, rfl⟩
      · obtain ⟨e1, he1, hp⟩ := ih p lv ex e2 h2
        exact ⟨e1, by simp [he1], hp⟩

lemma processBullet_pos (mkExp : Vec2 → Explosion) (dt : ℚ) (b : Bullet)
    (g : Game) :
    ∀ e2 ∈ (processBullet mkExp dt b g).1.enemies,
      ∃ e1 ∈ g.enemies, e1.pos = e2.pos := by
  intro e2 h2
  have hE : (processBullet mkExp dt b g).1.enemies =
      (bulletVsEnemies mkExp (b.update dt) g.enemies g.player g.level
        g.explosions).1 := by
    simp only [processBullet]
    cases hb : g.boss <;> simp only [hb] <;> split_ifs <;> rfl
  rw [hE] at h2
  exact bulletVsEnemies_pos mkExp (b.update dt) g.enemies g.player g.level
    g.explosions e2 h2

lemma updateBulletsGo_pos (mkExp : Vec2 → Explosion) (dt : ℚ) :
    ∀ (bs : List Bullet) (g : Game),
    ∀ e2 ∈ (updateBulletsGo mkExp dt bs g).enemies,
      ∃ e1 ∈ g.enemies, e1.pos = e2.pos := by
  intro bs
  induction bs with
  | nil => exact fun g e2 h2 => ⟨e2, h2, rfl⟩
  | cons b bs ih =>
    intro g e2 h2
    have hstep : updateBulletsGo mkExp dt (b :: bs) g =
        (match (processBullet mkExp dt b g).2 with
         | some b2 =>
             { updateBulletsGo mkExp dt bs (processBullet mkExp dt b g).1 with
                 bullets := b2 ::
                   (updateBulletsGo mkExp dt bs
                     (processBullet mkExp dt b g).1).bullets }
         | none => updateBulletsGo mkExp dt bs (processBullet mkExp dt b g).1) :=
      rfl
    have hp := processBullet_pos mkExp dt b g
    rw [hstep] at h2
    generalize hpe : processBullet mkExp dt b g = r at hp h2
    obtain ⟨g1, ob⟩ := r
    have step2 : ∀ x ∈ (updateBulletsGo mkExp dt bs g1).enemies,
        ∃ e1 ∈ g.enemies, e1.pos = x.pos := by
      intro x hx
      obtain ⟨em, hem, hpm⟩ := ih g1 x hx
      obtain ⟨e1, he1, hp1⟩ := hp em hem
      exact ⟨e1, he1, hp1.trans hpm⟩
    cases ob with
    | none => exact step2 e2 h2
    | some b2 =>
      dsimp only at h2
      exact step2 e2 h2

lemma updateBullets_pos (g : Game) (mkExp : Vec2 → Explosion) (dt : ℚ) :
    ∀ e2 ∈ (g.updateBullets mkExp dt).enemies,
      ∃ e1 ∈ g.enemies, e1.pos = e2.pos :=
  updateBulletsGo_pos mkExp dt g.bullets { g with bullets := [] }

/-- A laser pass only damages or removes enemies: every surviving enemy
keeps the position of an incoming one. -/
lemma laserVsEnemies_pos (mkExp : Vec2 → Explosion) (l : Laser)
    (es : List Enemy) (p : Player) (lv : Level) (ex : List Explosion) :
    ∀ e2 ∈ (laserVsEnemies mkExp l es p lv ex).1,
      ∃ e1 ∈ es, e1.pos = e2.pos := by
  intro e2 h2
  rw [laserVsEnemies_fst] at h2
  simp only [List.mem_filterMap] at h2
  obtain ⟨e1, he1, hf⟩ := h2
  refine ⟨e1, he1, ?_⟩
  split_ifs at hf with h1 hd
  · obtain rfl := Option.some.inj hf
    rfl
  · obtain rfl := Option.some.inj hf
    rfl

lemma processLaser_pos (mkExp : Vec2 → Explosion) (dt : ℚ) (l : Laser)
    (g : Game) :
    ∀ e2 ∈ (processLaser mkExp dt l g).1.enemies,
      ∃ e1 ∈ g.enemies, e1.pos = e2.pos := by
  intro e2 h2
  have hE : (processLaser mkExp dt l g).1.enemies =
      (laserVsEnemies mkExp (l.update dt) g.enemies g.player g.level
        g.explosions).1 := by
    simp only [processLaser]
    cases hb : g.boss <;> simp only [hb] <;> split_ifs <;> rfl
  rw [hE] at h2
  exact laserVsEnemies_pos mkExp (l.update dt) g.enemies g.player g.level
    g.explosions e2 h2

lemma updateLasersGo_pos (mkExp : Vec2 → Explosion) (dt : ℚ) :
    ∀ (ls : List Laser) (g : Game),
    ∀ e2 ∈ (updateLasersGo mkExp dt ls g).enemies,
      ∃ e1 ∈ g.enemies, e1.pos = e2.pos := by
  intro ls
  induction ls with
  | nil => exact fun g e2 h2 => ⟨e2, h2, rfl⟩
  | cons l ls ih =>
    intro g e2 h2
    have hstep : updateLasersGo mkExp dt (l :: ls) g =
        (match (processLaser mkExp dt l g).2 with
         | some l2 =>
             { updateLasersGo mkExp dt ls (processLaser mkExp dt l g).1 with
                 lasers := l2 ::
                   (updateLasersGo mkExp dt ls
                     (processLaser mkExp dt l g).1).lasers }
         | none => updateLasersGo mkExp dt ls (processLaser mkExp dt l g).1) :=
      rfl
    have hp := processLaser_pos mkExp dt l g
    rw [hstep] at h2
    generalize hpe : processLaser mkExp dt l g = r at hp h2
    obtain ⟨g1, ol⟩ := r
    have step2 : ∀ x ∈ (updateLasersGo mkExp dt ls g1).enemies,
        ∃ e1 ∈ g.enemies, e1.pos = x.pos := by
      intro x hx
      obtain ⟨em, hem, hpm⟩ := ih g1 x hx
      obtain ⟨e1, he1, hp1⟩ := hp em hem
      exact ⟨e1, he1, hp1.trans hpm⟩
    cases ol with
    | none => exact step2 e2 h2
    | some l2 =>
      dsimp only at h2
      exact step2 e2 h2

lemma updateLasers_pos (g : Game) (mkExp : Vec2 → Explosion) (dt : ℚ) :
    ∀ e2 ∈ (g.updateLasers mkExp dt).enemies,
      ∃ e1 ∈ g.enemies, e1.pos = e2.pos :=
  updateLasersGo_pos mkExp dt g.lasers { g with lasers := [] }

/-- The Playing-state frame never touches the enemy-bullet collection. -/
lemma updatePlaying_enemyBullets (g : Game) (env : Env) (a : Assets)
    (dt : ℚ) :
    (g.updatePlaying env a dt).enemyBullets = g.enemyBullets := by
  simp only [Game.updatePlaying]
  split_ifs <;>
    simp only [startBossFight_keeps, updateExplosions_keeps,
      updatePowerUps_keeps, updateEnemies_keeps, updateLasers_keeps,
      updateBullets_keeps, spawnEnemy_keeps, spawnPowerUp_keeps,
      doShooting_keeps, playerFrame_keeps]

/-- The BossFight-state frame never touches the power-up collection. -/
lemma updateBossFight_powerups (g : Game) (env : Env) (a : Assets)
    (dt : ℚ) :
    (g.updateBossFight env a dt).powerups = g.powerups := by
  simp only [Game.updateBossFight]
  simp only [bossWarningFrame_keeps, updateExplosions_keeps,
    updateLasers_keeps, updateEnemyBullets_keeps, updateBullets_keeps,
    bossFrame_keeps, doShooting_keeps, playerFrame_keeps]

lemma updatePlaying_bullets_onscreen (g : Game) (env : Env) (a : Assets)
    (dt : ℚ) :
    ∀ b1 ∈ (g.updatePlaying env a dt).bullets, b1.isOffScreen = false := by
  simp only [Game.updatePlaying]
  split_ifs <;>
    (intro b1 hb1
     simp only [startBossFight_keeps, updateExplosions_keeps,
       updatePowerUps_keeps, updateEnemies_keeps, updateLasers_keeps] at hb1
     exact updateBullets_onscreen _ _ _ b1 hb1)

lemma updatePlaying_lasers_active (g : Game) (env : Env) (a : Assets)
    (dt : ℚ) :
    ∀ l1 ∈ (g.updatePlaying env a dt).lasers, l1.isActive = true := by
  simp only [Game.updatePlaying]
  split_ifs <;>
    (intro l1 hl1
     simp only [startBossFight_keeps, updateExplosions_keeps,
       updatePowerUps_keeps, updateEnemies_keeps] at hl1
     exact updateLasers_active _ _ _ l1 hl1)

lemma updatePlaying_enemies_onscreen (g : Game) (env : Env) (a : Assets)
    (dt : ℚ) :
    ∀ e1 ∈ (g.updatePlaying env a dt).enemies, e1.isOffScreen = false := by
  simp only [Game.updatePlaying]
  split_ifs <;>
    (intro e1 he1
     simp only [startBossFight_keeps, updateExplosions_keeps,
       updatePowerUps_keeps] at he1
     exact updateEnemies_onscreen _ _ _ e1 he1)

lemma updatePlaying_powerups_onscreen (g : Game) (env : Env) (a : Assets)
    (dt : ℚ) :
    ∀ p1 ∈ (g.updatePlaying env a dt).powerups, p1.isOffScreen = false := by
  simp only [Game.updatePlaying]
  split_ifs <;>
    (intro p1 hp1
     simp only [startBossFight_keeps, updateExplosions_keeps] at hp1
     exact updatePowerUps_onscreen _ _ p1 hp1)

lemma updatePlaying_explosions_alive (g : Game) (env : Env) (a : Assets)
    (dt : ℚ) :
    ∀ x ∈ (g.updatePlaying env a dt).explosions,
      x.particles.isEmpty = false := by
  simp only [Game.updatePlaying]
  split_ifs <;>
    (intro x hx
     try simp only [startBossFight_keeps] at hx
     exact updateExplosions_alive _ _ x hx)

lemma updateBossFight_bullets_onscreen (g : Game) (env : Env) (a : Assets)
    (dt : ℚ) :
    ∀ b1 ∈ (g.updateBossFight env a dt).bullets, b1.isOffScreen = false := by
  simp only [Game.updateBossFight]
  intro b1 hb1
  simp only [bossWarningFrame_keeps, updateExplosions_keeps,
    updateLasers_keeps, updateEnemyBullets_keeps] at hb1
  exact updateBullets_onscreen _ _ _ b1 hb1

lemma updateBossFight_enemyBullets_low (g : Game) (env : Env) (a : Assets)
    (dt : ℚ) :
    ∀ b1 ∈ (g.updateBossFight env a dt).enemyBullets, b1.pos.y ≤ 600 := by
  simp only [Game.updateBossFight]
  intro b1 hb1
  simp only [bossWarningFrame_keeps, updateExplosions_keeps,
    updateLasers_keeps] at hb1
  exact updateEnemyBullets_low _ _ _ b1 hb1

lemma updateBossFight_lasers_active (g : Game) (env : Env) (a : Assets)
    (dt : ℚ) :
    ∀ l1 ∈ (g.updateBossFight env a dt).lasers, l1.isActive = true := by
  simp only [Game.updateBossFight]
  intro l1 hl1
  simp only [bossWarningFrame_keeps, updateExplosions_keeps] at hl1
  exact updateLasers_active _ _ _ l1 hl1

lemma updateBossFight_explosions_alive (g : Game) (env : Env) (a : Assets)
    (dt : ℚ) :
    ∀ x ∈ (g.updateBossFight env a dt).explosions,
      x.particles.isEmpty = false := by
  simp only [Game.updateBossFight]
  intro x hx
  simp only [bossWarningFrame_keeps] at hx
  exact updateExplosions_alive _ _ x hx

/-- In the BossFight frame no enemy is ever advanced: every surviving enemy
sits exactly where an incoming one sat (it may only have been damaged or
removed by the bullet and laser passes). -/
lemma updateBossFight_enemies_pos (g : Game) (env : Env) (a : Assets)
    (dt : ℚ) :
    ∀ e2 ∈ (g.updateBossFight env a dt).enemies,
      ∃ e1 ∈ g.enemies, e1.pos = e2.pos := by
  simp only [Game.updateBossFight]
  intro e2 h2
  simp only [bossWarningFrame_keeps, updateExplosions_keeps] at h2
  obtain ⟨em, hem, hpm⟩ := updateLasers_pos _ _ _ e2 h2
  rw [(updateEnemyBullets_keeps _ _ _).2.2.2] at hem
  obtain ⟨e1, he1, hp1⟩ := updateBullets_pos _ _ _ em hem
  rw [(bossFrame_keeps _ _ _ _).2.1, (doShooting_keeps _ _ _).1,
    (playerFrame_keeps _ _ _).2.2.1] at he1
  exact ⟨e1, he1, hp1.trans hpm⟩

/-- A Playing-state game holding one enemy bullet that already sits past
the bottom of the play area at (100, 700). -/
def c4game : Game :=
  { sampleGame GameState.Playing with
      enemyBullets := [⟨⟨100, 700⟩, ⟨10, 10⟩, 10⟩] }

/-- A BossFight-state game holding one power-up already past the bottom of
the play area at (100, 700). -/
def c4game2 : Game :=
  { sampleGame GameState.BossFight with
      powerups := [⟨PowerUpType.Health, ⟨100, 700⟩, ⟨10, 10⟩⟩] }

/-- C4 counterexample: the Playing-state frame leaves an off-screen
(y = 700 > 600) enemy bullet in place, neither advancing nor culling it, and
the BossFight-state frame likewise leaves an off-screen power-up in place —
so not every per-frame update advances and culls all of the projectile,
enemy, power-up and explosion collections in both states. -/
theorem c4_not_all_collections_counterexample :
    (c4game.updatePlaying envNone sampleAssets 1).enemyBullets =
      [⟨⟨100, 700⟩, ⟨10, 10⟩, 10⟩] ∧
    (c4game2.updateBossFight envNone sampleAssets 1).powerups =
      [⟨PowerUpType.Health, ⟨100, 700⟩, ⟨10, 10⟩⟩] ∧
    (600 : ℚ) < 700 := by
  refine ⟨?_, ?_, by norm_num⟩
  · rw [updatePlaying_enemyBullets]
    rfl
  · rw [updateBossFight_powerups]
    rfl

/-- C4 amended: updatePlaying advances and culls the player bullets, lasers,
enemies, power-ups and explosions, but never touches enemy bullets;
updateBossFight advances and culls the player bullets, enemy bullets,
lasers and explosions, but never touches power-ups and never advances or
off-screen-culls enemies (which can only be damaged or removed in place by
the bullet and laser passes). Culling shows in the survivors: no off-screen
bullet, enemy bullet, enemy or power-up, no expired laser, no dead
explosion remains. -/
theorem c4_per_state_collection_passes (env : Env) (a : Assets) (dt : ℚ)
    (g : Game) :
    (g.updatePlaying env a dt).enemyBullets = g.enemyBullets ∧
    ((g.updatePlaying env a dt).bullets.all fun b => !b.isOffScreen) = true ∧
    ((g.updatePlaying env a dt).lasers.all fun l => l.isActive) = true ∧
    ((g.updatePlaying env a dt).enemies.all fun e => !e.isOffScreen) = true ∧
    ((g.updatePlaying env a dt).powerups.all fun p => !p.isOffScreen) = true ∧
    ((g.updatePlaying env a dt).explosions.all
      fun x => !x.particles.isEmpty) = true ∧
    (g.updateBossFight env a dt).powerups = g.powerups ∧
    ((g.updateBossFight env a dt).enemies.all fun e2 =>
      g.enemies.any fun e1 => decide (e1.pos = e2.pos)) = true ∧
    ((g.updateBossFight env a dt).bullets.all fun b => !b.isOffScreen) = true ∧
    ((g.updateBossFight env a dt).enemyBullets.all
      fun b => decide (b.pos.y ≤ 600)) = true ∧
    ((g.updateBossFight env a dt).lasers.all fun l => l.isActive) = true ∧
    ((g.updateBossFight env a dt).explosions.all
      fun x => !x.particles.isEmpty) = true := by
  refine ⟨updatePlaying_enemyBullets g env a dt, ?_, ?_, ?_, ?_, ?_,
    updateBossFight_powerups g env a dt, ?_, ?_, ?_, ?_, ?_⟩
  · simp only [List.all_eq_true]
    intro b1 hb1
    simp [updatePlaying_bullets_onscreen g env a dt b1 hb1]
  · simp only [List.all_eq_true]
    intro l1 hl1
    simp [updatePlaying_lasers_active g env a dt l1 hl1]
  · simp only [List.all_eq_true]
    intro e1 he1
    simp [updatePlaying_enemies_onscreen g env a dt e1 he1]
  · simp only [List.all_eq_true]
    intro p1 hp1
    simp [updatePlaying_powerups_onscreen g env a dt p1 hp1]
  · simp only [List.all_eq_true]
    intro x hx
    simp [updatePlaying_explosions_alive g env a dt x hx]
  · simp only [List.all_eq_true]
    intro e2 he2
    obtain ⟨e1, he1, hp⟩ := updateBossFight_enemies_pos g env a dt e2 he2
    simp only [List.any_eq_true]
    exact ⟨e1, he1, by simp [hp]⟩
  · simp only [List.all_eq_true]
    intro b1 hb1
    simp [updateBossFight_bullets_onscreen g env a dt b1 hb1]
  · simp only [List.all_eq_true]
    intro b1 hb1
    simp [updateBossFight_enemyBullets_low g env a dt b1 hb1]
  · simp only [List.all_eq_true]
    intro l1 hl1
    simp [updateBossFight_lasers_active g env a dt l1 hl1]
  · simp only [List.all_eq_true]
    intro x hx
    simp [updateBossFight_explosions_alive g env a dt x hx]

end SpaceShooter
